import Mathlib

/-!
ParkPilot ingestion pipeline: `api/parks_service.go`.

A shallow embedding of the synchronisation code of `api/parks_service.go`
and theorems about it.

Go strings are modelled as lists of characters (`Str`).  Every byte the
code inspects (`'_'`, `'/'`, `'.'`, `'+'`, `'-'`, the decimal digits and the
ASCII letters) is a one-byte ASCII character, so that on valid UTF-8 input the
byte-indexed loops of the source and the character-indexed loops below agree.
-/

namespace ParkPilot

/-- Go `string`, as the list of its characters. -/
abbrev Str := List Char

/-! ## Standard-library helpers used by `quick_strip_url` -/

/-- Go `strings.LastIndexByte(s, c)` scanning `i = n-1, ..., 0`; `none` is Go's `-1`. -/
def lastIndexByteLoop (s : Str) (c : Char) : Nat → Option Nat
  | 0 => none
  | i + 1 => if s[i]? = some c then some i else lastIndexByteLoop s c i

/-- Go `strings.LastIndexByte`. -/
def lastIndexByte (s : Str) (c : Char) : Option Nat :=
  lastIndexByteLoop s c s.length

/-- The loop of `path.Base` that strips trailing slashes:
`for len(path) > 0 && path[len(path)-1] == '/' { path = path[0 : len(path)-1] }`,
with `n` the current length. -/
def stripTrailingSlashes (path : Str) : Nat → Str
  | 0 => path.take 0
  | n + 1 => if path[n]? = some '/' then stripTrailingSlashes path n else path.take (n + 1)

/-- Go `path.Base`. -/
def pathBase (path : Str) : Str :=
  if path = [] then ['.']
  else
    let path1 := stripTrailingSlashes path path.length
    let path2 :=
      match lastIndexByte path1 '/' with
      | some i => path1.drop (i + 1)
      | none => path1
    if path2 = [] then ['/'] else path2

/-- The loop of Go `path.Ext`:
`for i := len(path) - 1; i >= 0 && path[i] != '/'; i--`, returning `path[i:]`
at the first `'.'` met; the counter is `i + 1`. -/
def pathExtLoop (path : Str) : Nat → Str
  | 0 => []
  | i + 1 =>
    if path[i]? = some '/' then []
    else if path[i]? = some '.' then path.drop i
    else pathExtLoop path i

/-- Go `path.Ext`. -/
def pathExt (path : Str) : Str := pathExtLoop path path.length

/-- Go `strings.HasSuffix`. -/
def hasSuffix (s suffix : Str) : Bool :=
  decide (suffix.length ≤ s.length) && decide (s.drop (s.length - suffix.length) = suffix)

/-- Go `strings.TrimSuffix`. -/
def trimSuffix (s suffix : Str) : Str :=
  if hasSuffix s suffix then s.take (s.length - suffix.length) else s

/-! ## `quick_strip_url` and `quick_strip` -/

/-- Source `quick_strip_url`: the file name of the URL without its extension. -/
def quick_strip_url (s : Str) : Str :=
  let filename := pathBase s
  let ext := pathExt filename
  trimSuffix filename ext

/-- The loop of `quick_strip`: `for i := len(s) - 1; i >= 0; i--`, returning
`s[:i]` at the first `'_'` met; the counter is `i + 1`. -/
def quick_stripLoop (s : Str) : Nat → Str
  | 0 => s
  | i + 1 => if s[i]? = some '_' then s.take i else quick_stripLoop s i

/-- Source `quick_strip`: cut the string at its last underscore. -/
def quick_strip (s : Str) : Str := quick_stripLoop s s.length

/-! ## `inflector.Snakecase` (PocketBase `tools/inflector`) -/

/-- Go regexp class `\w`: an ASCII letter, digit or underscore. -/
def isWordChar (c : Char) : Bool :=
  ('a' ≤ c && c ≤ 'z') || ('A' ≤ c && c ≤ 'Z') || ('0' ≤ c && c ≤ '9') || c = '_'

/-- A character matched by `snakecaseSplitRegex`, the class `[\W_]`. -/
def isSplitChar (c : Char) : Bool := !isWordChar c || c = '_'

/-- The words of `snakecaseSplitRegex.Split(str, -1)`: the pieces between the
maximal runs of split characters (`cur` is the piece being read, reversed). -/
def splitWords : Str → Str → List Str
  | [], cur => [cur.reverse]
  | c :: cs, cur =>
    if isSplitChar c then
      match cs with
      | [] => [cur.reverse, []]
      | d :: _ => if isSplitChar d then splitWords cs cur else cur.reverse :: splitWords cs []
    else splitWords cs (c :: cur)

/-- Go `unicode.IsUpper` on the characters that can occur in a word. -/
def isUpper (c : Char) : Bool := 'A' ≤ c && c ≤ 'Z'

/-- The inner loop of `Snakecase` over one word: an underscore is written
before an upper-case character that is not first and does not follow an
upper-case character.  `prev` is the previous character of the word, if any. -/
def snakeWord : Option Char → Str → Str
  | _, [] => []
  | none, c :: cs => c :: snakeWord (some c) cs
  | some p, c :: cs =>
    if isUpper c && !isUpper p then '_' :: c :: snakeWord (some c) cs
    else c :: snakeWord (some c) cs

/-- The outer loop of `Snakecase`: empty words are skipped, the others are
joined with an underscore. -/
def snakeJoin : Str → List Str → Str
  | result, [] => result
  | result, word :: rest =>
    if word = [] then snakeJoin result rest
    else
      let result1 := if 0 < result.length then result ++ ['_'] else result
      snakeJoin (result1 ++ snakeWord none word) rest

/-- Go `strings.ToLower` on ASCII text. -/
def toLower (s : Str) : Str :=
  s.map fun c => if isUpper c then Char.ofNat (c.toNat + 32) else c

/-- PocketBase `inflector.Snakecase`. -/
def Snakecase (str : Str) : Str :=
  toLower (snakeJoin [] (splitWords str []))

/-! ## The dedup decision of the image loops -/

/-- The inner loop of `ImageLoop` (identical in `FetchAndStoreNationalParks`
and in `fetchCampgrounds`): `true` when `continue ImageLoop` is taken, that is
when the candidate is skipped as a duplicate. -/
def isDuplicate (imageURL : Str) : List Str → Bool
  | [] => false
  | existingImage :: rest =>
    if Snakecase (quick_strip_url imageURL) = quick_strip existingImage then true
    else isDuplicate imageURL rest

/-! ## Data model -/

/-- A byte buffer. -/
abbrev Bytes := List Nat

/-- Go `error`: the model only records which step failed. -/
inductive Err where
  | network
  | decode
  | encode
  | notFound
  | emptyFile
  | persist
  | malformed
  | range
  deriving DecidableEq, Repr

/-- A decoded `image.Image`: the extent of its bounds (`Bounds().Dx()`,
`Bounds().Dy()`) and a tag standing for its pixels. -/
structure Image where
  dx : Int
  dy : Int
  pixels : Nat
  deriving DecidableEq, Repr

/-- The `*image.RGBA` built by `downloadAndResizeImage`: the size of its
rectangle, the image drawn into it, and whether it was drawn by
`draw.NearestNeighbor.Scale` (`true`) or by `draw.Draw` (`false`). -/
structure Raster where
  width : Int
  height : Int
  source : Image
  scaled : Bool
  deriving DecidableEq, Repr

/-- The anonymous element type of `data.Data` in `FetchAndStoreNationalParks`:
the JSON fields of `Park` and the image URLs. -/
structure ParkEntry where
  FullName : Str
  Description : Str
  Latitude : Str
  Longitude : Str
  States : Str
  Designation : Str
  ParkCode : Str
  DirectionsInfo : Str
  WeatherInfo : Str
  Images : List Str
  deriving DecidableEq, Repr

/-- The anonymous element type of `data.Data` in `fetchCampgrounds`: the JSON
fields of `Campground` and the image URLs. -/
structure CampEntry where
  Id : Str
  Name : Str
  Description : Str
  Latitude : Str
  Longitude : Str
  ReservationInfo : Str
  ReservationURL : Str
  DirectionsOverview : Str
  WeatherOverview : Str
  Reservable : Str
  FirstComeFirstServe : Str
  Images : List Str
  deriving DecidableEq, Repr

/-- Source `Alert`. -/
structure Alert where
  Title : Str
  Description : Str
  Category : Str
  Url : Str
  deriving DecidableEq, Repr

/-- A record of the `parks` collection, with the fields the code reads or
writes. -/
structure ParkRecord where
  Id : Str
  parkCode : Str
  name : Str
  description : Str
  latitude : Str
  longitude : Str
  states : Str
  weatherInfo : Str
  directionsInfo : Str
  images : List Str
  campgrounds : Int
  deriving DecidableEq, Repr

/-- A record of the `campgrounds` collection. -/
structure CampRecord where
  Id : Str
  campId : Str
  name : Str
  parkId : Str
  description : Str
  latitude : Str
  longitude : Str
  reservationInfo : Str
  reservationUrl : Str
  directionsOverview : Str
  weatherOverview : Str
  reservable : Int
  firstComeFirstServe : Int
  images : List Str
  mapImage : Str
  deriving DecidableEq, Repr

/-- A record of the `alerts` collection. -/
structure AlertRecord where
  Id : Str
  title : Str
  description : Str
  category : Str
  url : Str
  park : Str
  deriving DecidableEq, Repr

/-- The record store: its three collections, in insertion order. -/
structure Store where
  parks : List ParkRecord
  campgrounds : List CampRecord
  alerts : List AlertRecord
  deriving DecidableEq, Repr

/-- The body of an HTTP response, seen through each decoder the code applies
to one: `none` is a decoding error. -/
structure Body where
  parks : Option (List ParkEntry)
  campgrounds : Option (List CampEntry)
  alerts : Option (List Alert)
  image : Option Image

/-- What the code reads of an `*http.Response`. -/
structure Response where
  StatusCode : Nat
  body : Body

/-- An externally visible action of the code, in the order performed. -/
inductive Effect where
  | httpGet (url : Str)
  | findCollection (name : Str)
  | findPark (parkCode : Str)
  | findCampground (campId : Str)
  | findAll (collection : Str)
  | newFile (name : Str)
  | submitPark (data : ParkRecord) (saved : Bool)
  | submitCampground (data : CampRecord) (saved : Bool)
  | submitAlert (data : AlertRecord) (saved : Bool)
  | deleteAlert (r : AlertRecord) (deleted : Bool)
  deriving DecidableEq, Repr

/-- Everything outside the program.  An answer may depend on the moment of
the call (`clock`, the number of external calls made before it), so that any
sequence of answers can be described.
* `httpGet`: `none` is a transport error (`err != nil`);
* `dbOk`: whether the store answers a lookup, listing or deletion;
* `submitOk`: whether `form.Submit` validates and saves;
* `newId`: the id given to a record saved for the first time;
* `fileName`: the name `filesystem.NewFileFromBytes` gives to a file;
* `jpegEncode`, `pngEncode`: the encoders, `none` being an error. -/
structure Env where
  NPS_API_KEY : Str
  MAPBOX_ACCESS_TOKEN : Str
  httpGet : Nat → Str → Option Response
  dbOk : Nat → Bool
  submitOk : Nat → Bool
  newId : Nat → Str
  fileName : Nat → Str → Str
  jpegEncode : Raster → Option Bytes
  pngEncode : Image → Option Bytes

/-- The state threaded through the code: the clock, the store and the trace
of actions so far. -/
structure World where
  clock : Nat
  store : Store
  trace : List Effect
  deriving DecidableEq, Repr

/-- Perform one external action. -/
def World.tick (w : World) (e : Effect) : World :=
  { w with clock := w.clock + 1, trace := w.trace ++ [e] }

/-- Go `http.StatusOK`. -/
def StatusOK : Nat := 200

/-! ## Image Transcoder: `downloadAndResizeImage`, `getMapImage` -/

/-- Go `int` arithmetic on a 64-bit platform: the result of an operation,
wrapped to two's complement. -/
def wrapInt (x : Int) : Int := (x + 2 ^ 63) % 2 ^ 64 - 2 ^ 63

/-- The size (`Dx`, `Dy`) of Go `image.Rect(0, 0, x1, y1)`, which swaps the
two corners of a coordinate when they are out of order. -/
def rectSize (x1 y1 : Int) : Int × Int :=
  (if 0 > x1 then wrapInt (0 - x1) else x1, if 0 > y1 then wrapInt (0 - y1) else y1)

/-- The raster `dst` of `downloadAndResizeImage`: scaled to `maxWidth` when the
image is wider, of the size of the image otherwise. -/
def resizeRaster (img : Image) (maxWidth : Int) : Raster :=
  if img.dx > maxWidth then
    let size := rectSize maxWidth (Int.tdiv (wrapInt (img.dy * maxWidth)) img.dx)
    { width := size.1, height := size.2, source := img, scaled := true }
  else
    let size := rectSize img.dx img.dy
    { width := size.1, height := size.2, source := img, scaled := false }

/-- Source `downloadAndResizeImage`. -/
def downloadAndResizeImage (env : Env) (w : World) (url : Str) (maxWidth : Int) :
    World × Except Err Bytes :=
  let w1 := w.tick (.httpGet url)
  match env.httpGet w.clock url with
  | none => (w1, .error .network)
  | some response =>
    match response.body.image with
    | none => (w1, .error .decode)
    | some img =>
      match env.jpegEncode (resizeRaster img maxWidth) with
      | none => (w1, .error .encode)
      | some buf => (w1, .ok buf)

/-- The two `fmt.Sprintf` formats of `getMapImage`. -/
def mapImageURL (env : Env) (lat lon : Str) (firstCome : Bool) : Str :=
  let pin : Str := if firstCome then "pin-l+65a30d".toList else "pin-l+e85151".toList
  "https://api.mapbox.com/styles/v1/mapbox/outdoors-v12/static/".toList ++ pin ++ ['(']
    ++ lon ++ [','] ++ lat ++ [')', '/'] ++ lon ++ [','] ++ lat
    ++ ",15.2,0/768x384@2x?access_token=".toList ++ env.MAPBOX_ACCESS_TOKEN

/-- Source `getMapImage`. -/
def getMapImage (env : Env) (w : World) (lat lon : Str) (firstCome : Bool) :
    World × Except Err Bytes :=
  let url := mapImageURL env lat lon firstCome
  let w1 := w.tick (.httpGet url)
  match env.httpGet w.clock url with
  | none => (w1, .error .network)
  | some resp =>
    match resp.body.image with
    | none => (w1, .error .decode)
    | some mapImageBytes =>
      match env.pngEncode mapImageBytes with
      | none => (w1, .error .encode)
      | some byteImage => (w1, .ok byteImage)

/-- PocketBase `filesystem.NewFileFromBytes`: an empty buffer is refused,
otherwise the file gets a normalised name.  The result is that name. -/
def NewFileFromBytes (env : Env) (w : World) (b : Bytes) (name : Str) :
    World × Except Err Str :=
  if b.length = 0 then (w, .error .emptyFile)
  else (w.tick (.newFile name), .ok (env.fileName w.clock name))

/-! ## The store and the upsert forms -/

/-- `FindFirstRecordByData("parks", "parkCode", code)`: the first record with
that code; `none` is the error (no row, or the store failing). -/
def findPark (env : Env) (w : World) (code : Str) : World × Option ParkRecord :=
  (w.tick (.findPark code),
    if env.dbOk w.clock then w.store.parks.find? (fun r => r.parkCode = code) else none)

/-- `FindFirstRecordByData("campgrounds", "campId", id)`. -/
def findCampground (env : Env) (w : World) (id : Str) : World × Option CampRecord :=
  (w.tick (.findCampground id),
    if env.dbOk w.clock then w.store.campgrounds.find? (fun r => r.campId = id) else none)

/-- `FindCollectionByNameOrId(name)`: `true` when the collection is found. -/
def findCollection (env : Env) (w : World) (name : Str) : World × Bool :=
  (w.tick (.findCollection name), env.dbOk w.clock)

/-- `models.NewRecord(collection)` on `parks`: every field at its zero value. -/
def newParkRecord : ParkRecord :=
  { Id := [], parkCode := [], name := [], description := [], latitude := [], longitude := [],
    states := [], weatherInfo := [], directionsInfo := [], images := [], campgrounds := 0 }

/-- `models.NewRecord(collection)` on `campgrounds`. -/
def newCampRecord : CampRecord :=
  { Id := [], campId := [], name := [], parkId := [], description := [], latitude := [],
    longitude := [], reservationInfo := [], reservationUrl := [], directionsOverview := [],
    weatherOverview := [], reservable := 0, firstComeFirstServe := 0, images := [],
    mapImage := [] }

/-- Write a park record: appended when new, replacing the record of the same
id otherwise. -/
def Store.savePark (s : Store) (isNew : Bool) (r : ParkRecord) : Store :=
  if isNew then { s with parks := s.parks ++ [r] }
  else { s with parks := s.parks.map fun x => if x.Id = r.Id then r else x }

/-- Write a campground record. -/
def Store.saveCampground (s : Store) (isNew : Bool) (r : CampRecord) : Store :=
  if isNew then { s with campgrounds := s.campgrounds ++ [r] }
  else { s with campgrounds := s.campgrounds.map fun x => if x.Id = r.Id then r else x }

/-- A `forms.RecordUpsert` on a park record: the record it was built on,
whether that record is not in the store yet, and the form data.  `LoadData`
and `AddFiles` change the form data only; the record and the store change
when `Submit` succeeds. -/
structure ParkForm where
  record : ParkRecord
  isNew : Bool
  data : ParkRecord
  deriving DecidableEq, Repr

/-- `forms.NewRecordUpsert(app, record)`: the form data start as the record. -/
def NewParkRecordUpsert (record : ParkRecord) (isNew : Bool) : ParkForm :=
  { record := record, isNew := isNew, data := record }

/-- `form.Submit()` on a park form; the flag is `err == nil`. -/
def ParkForm.Submit (env : Env) (w : World) (form : ParkForm) : World × ParkForm × Bool :=
  if env.submitOk w.clock then
    let saved : ParkRecord :=
      { form.data with Id := if form.isNew then env.newId w.clock else form.record.Id }
    ({ clock := w.clock + 1, store := w.store.savePark form.isNew saved,
       trace := w.trace ++ [.submitPark saved true] },
     { record := saved, isNew := false, data := saved }, true)
  else (w.tick (.submitPark form.data false), form, false)

/-- A `forms.RecordUpsert` on a campground record. -/
structure CampForm where
  record : CampRecord
  isNew : Bool
  data : CampRecord
  deriving DecidableEq, Repr

/-- `forms.NewRecordUpsert(app, record)` on a campground record. -/
def NewCampRecordUpsert (record : CampRecord) (isNew : Bool) : CampForm :=
  { record := record, isNew := isNew, data := record }

/-- `form.Submit()` on a campground form; the flag is `err == nil`. -/
def CampForm.Submit (env : Env) (w : World) (form : CampForm) : World × CampForm × Bool :=
  if env.submitOk w.clock then
    let saved : CampRecord :=
      { form.data with Id := if form.isNew then env.newId w.clock else form.record.Id }
    ({ clock := w.clock + 1, store := w.store.saveCampground form.isNew saved,
       trace := w.trace ++ [.submitCampground saved true] },
     { record := saved, isNew := false, data := saved }, true)
  else (w.tick (.submitCampground form.data false), form, false)

/-! ## `strconv.Atoi` (Go standard library, 64-bit `int`) -/

/-- Go `len(s)`: the number of bytes of the UTF-8 encoding. -/
def byteLen (s : Str) : Nat := (s.map Char.utf8Size).sum

/-- A decimal digit byte. -/
def isDigit (c : Char) : Bool := '0' ≤ c && c ≤ '9'

/-- The digit loop of the fast path of `Atoi`: `n = n*10 + int(ch)`, with a
syntax error at the first byte that is not a digit. -/
def atoiFastLoop : Int → Str → Int × Option Err
  | n, [] => (n, none)
  | n, ch :: rest =>
    if isDigit ch then atoiFastLoop (wrapInt (n * 10 + ((ch.toNat : Int) - 48))) rest
    else (0, some .malformed)

/-- The digit loop of `strconv.ParseUint(s, 10, 64)` on `uint64`: a syntax
error at the first byte that is not a digit, a range error (with `maxVal`) as
soon as the value leaves `uint64`. -/
def parseUintLoop : Nat → Str → Nat × Option Err
  | n, [] => (n, none)
  | n, c :: rest =>
    if isDigit c then
      let d := c.toNat - 48
      if n ≥ (2 ^ 64 - 1) / 10 + 1 then (2 ^ 64 - 1, some .range)
      else
        let n10 := (n * 10) % 2 ^ 64
        let n1 := (n10 + d) % 2 ^ 64
        if n1 < n10 ∨ n1 > 2 ^ 64 - 1 then (2 ^ 64 - 1, some .range)
        else parseUintLoop n1 rest
    else (0, some .malformed)

/-- Go `strconv.ParseUint(s, 10, 0)`. -/
def ParseUint (s : Str) : Nat × Option Err :=
  if s = [] then (0, some .malformed) else parseUintLoop 0 s

/-- Go `strconv.ParseInt(s, 10, 0)`. -/
def ParseInt (s : Str) : Int × Option Err :=
  if s = [] then (0, some .malformed)
  else
    let neg : Bool := s.head? = some '-'
    let s1 : Str := if s.head? = some '+' ∨ s.head? = some '-' then s.drop 1 else s
    let r := ParseUint s1
    if r.2 = some .malformed then (0, some .malformed)
    else
      let un := r.1
      let cutoff : Nat := 2 ^ 63
      if !neg ∧ un ≥ cutoff then ((cutoff : Int) - 1, some .range)
      else if neg ∧ un > cutoff then (-(cutoff : Int), some .range)
      else
        let n := wrapInt (un : Int)
        (if neg then wrapInt (-n) else n, none)

/-- Go `strconv.Atoi`: the value and the error. -/
def Atoi (s : Str) : Int × Option Err :=
  let sLen := byteLen s
  if 0 < sLen ∧ sLen < 19 then
    let s1 : Str := if s.head? = some '-' ∨ s.head? = some '+' then s.drop 1 else s
    if s1.length < 1 then (0, some .malformed)
    else
      let r := atoiFastLoop 0 s1
      if r.2 ≠ none then (0, r.2)
      else (if s.head? = some '-' then wrapInt (-r.1) else r.1, none)
  else ParseInt s

/-! ### Decimal integers, as the specification reads them -/

/-- The value of a decimal digit. -/
def digitVal (c : Char) : Nat := c.toNat - 48

/-- The number written by a string of decimal digits, read after the digits
already read as `n`. -/
def digitsValueFrom (n : Nat) (ds : Str) : Nat := ds.foldl (fun m c => m * 10 + digitVal c) n

/-- The number written by a string of decimal digits. -/
def digitsValue (ds : Str) : Nat := digitsValueFrom 0 ds

/-- A string without its optional leading sign. -/
def unsignedPart (s : Str) : Str :=
  if s.head? = some '+' ∨ s.head? = some '-' then s.drop 1 else s

/-- A valid decimal integer: an optional sign, then one digit or more and
nothing else. -/
def isDecimal (s : Str) : Bool := !(unsignedPart s).isEmpty && (unsignedPart s).all isDigit

/-- The integer written by a valid decimal integer. -/
def decimalInt (s : Str) : Int :=
  if s.head? = some '-' then -(digitsValue (unsignedPart s) : Int)
  else (digitsValue (unsignedPart s) : Int)

/-! ## Campground Synchronizer: `fetchCampgrounds` -/

/-- The request URL of `fetchCampgrounds`. -/
def campgroundsURL (env : Env) (parkCode : Str) : Str :=
  "https://developer.nps.gov/api/v1/campgrounds?parkCode=".toList ++ parkCode
    ++ "&api_key=".toList ++ env.NPS_API_KEY

/-- The `form.LoadData` call of `fetchCampgrounds`. -/
def campLoadData (form : CampForm) (parkId : Str) (campground : CampEntry)
    (reservable firstComeFirstServe : Int) : CampForm :=
  { form with data :=
    { form.data with
      name := campground.Name
      parkId := parkId
      description := campground.Description
      latitude := campground.Latitude
      longitude := campground.Longitude
      reservationInfo := campground.ReservationInfo
      reservationUrl := campground.ReservationURL
      directionsOverview := campground.DirectionsOverview
      weatherOverview := campground.WeatherOverview
      reservable := reservable
      firstComeFirstServe := firstComeFirstServe
      campId := campground.Id } }

/-- The body of `ImageLoop` in `fetchCampgrounds` for one image URL. -/
def campImageLoopBody (env : Env) (current_images : List Str) (s : World × CampForm)
    (imageURL : Str) : World × CampForm :=
  if isDuplicate imageURL current_images then s
  else
    match downloadAndResizeImage env s.1 imageURL 1500 with
    | (w1, .error _) => (w1, s.2)
    | (w1, .ok resizedImageBytes) =>
      match NewFileFromBytes env w1 resizedImageBytes (pathBase imageURL) with
      | (w2, .error _) => (w2, s.2)
      | (w2, .ok tmpFile) =>
        let form1 : CampForm :=
          { s.2 with data := { s.2.data with images := s.2.data.images ++ [tmpFile] } }
        let r := form1.Submit env w2
        (r.1, r.2.1)

/-- The body of the campground loop of `fetchCampgrounds` for one entry. -/
def campLoopBody (env : Env) (parkId : Str) (w : World) (campground : CampEntry) : World :=
  let found := findCampground env w campground.Id
  let record : CampRecord := found.2.getD newCampRecord
  let form := NewCampRecordUpsert record found.2.isNone
  let reservable := (Atoi campground.Reservable).1
  let firstComeFirstServe := (Atoi campground.FirstComeFirstServe).1
  let form1 := campLoadData form parkId campground reservable firstComeFirstServe
  let current_images := record.images
  let s := campground.Images.foldl (campImageLoopBody env current_images) (found.1, form1)
  if s.2.record.mapImage = [] then
    let firstCome : Bool := campground.FirstComeFirstServe ≠ ['0']
    match getMapImage env s.1 campground.Latitude campground.Longitude firstCome with
    | (w1, .error _) => w1
    | (w1, .ok imageBytes) =>
      match NewFileFromBytes env w1 imageBytes "map.png".toList with
      | (w2, .error _) => w2
      | (w2, .ok tmpfile) =>
        let form2 : CampForm := { s.2 with data := { s.2.data with mapImage := tmpfile } }
        (form2.Submit env w2).1
  else s.1

/-- Source `fetchCampgrounds`: the world after, `count` and `err`. -/
def fetchCampgrounds (env : Env) (w : World) (parkId parkCode : Str) :
    World × Int × Option Err :=
  let url := campgroundsURL env parkCode
  let w1 := w.tick (.httpGet url)
  match env.httpGet w.clock url with
  | none => (w1, 0, some .network)
  | some resp =>
    -- `err` is `nil` from here on
    if resp.StatusCode ≠ StatusOK then (w1, 0, none)
    else
      match resp.body.campgrounds with
      | none => (w1, 0, some .decode)
      | some data =>
        match findCollection env w1 "campgrounds".toList with
        | (w2, false) => (w2, 0, some .notFound)
        | (w2, true) => (data.foldl (campLoopBody env parkId) w2, (data.length : Int), none)

/-! ## Park Synchronizer: `FetchAndStoreNationalParks` -/

/-- The request URL of `FetchAndStoreNationalParks`. -/
def parksURL (env : Env) : Str :=
  "https://developer.nps.gov/api/v1/parks?limit=500&api_key=".toList ++ env.NPS_API_KEY

/-- The designation test of the park loop. -/
def acceptedDesignation (park : ParkEntry) : Bool :=
  decide (park.Designation = "National Park".toList)
    || decide (park.Designation = "National Park & Preserve".toList)

/-- The first `form.LoadData` call of the park loop. -/
def parkLoadData (form : ParkForm) (park : ParkEntry) : ParkForm :=
  { form with data :=
    { form.data with
      name := park.FullName
      description := park.Description
      latitude := park.Latitude
      longitude := park.Longitude
      states := park.States
      weatherInfo := park.WeatherInfo
      directionsInfo := park.DirectionsInfo } }

/-- The body of `ImageLoop` in `FetchAndStoreNationalParks` for one image URL. -/
def parkImageLoopBody (env : Env) (current_images : List Str) (s : World × ParkForm)
    (imageURL : Str) : World × ParkForm :=
  if isDuplicate imageURL current_images then s
  else
    match downloadAndResizeImage env s.1 imageURL 1500 with
    | (w1, .error _) => (w1, s.2)
    | (w1, .ok resizedImageBytes) =>
      match NewFileFromBytes env w1 resizedImageBytes (pathBase imageURL) with
      | (w2, .error _) => (w2, s.2)
      | (w2, .ok tmpFile) =>
        let form1 : ParkForm :=
          { s.2 with data := { s.2.data with images := s.2.data.images ++ [tmpFile] } }
        let r := form1.Submit env w2
        (r.1, r.2.1)

/-- The body of the park loop of `FetchAndStoreNationalParks` for one catalog
entry. -/
def parkLoopBody (env : Env) (w : World) (park : ParkEntry) : World :=
  if acceptedDesignation park then
    let found := findPark env w park.ParkCode
    let record : ParkRecord :=
      match found.2 with
      | some existingRecord => existingRecord
      | none => { newParkRecord with parkCode := park.ParkCode }
    let form := parkLoadData (NewParkRecordUpsert record found.2.isNone) park
    let current_images := record.images
    let s := park.Images.foldl (parkImageLoopBody env current_images) (found.1, form)
    match fetchCampgrounds env s.1 s.2.record.Id park.ParkCode with
    | (w1, _, some _) => w1
    | (w1, campCount, none) =>
      let form1 : ParkForm := { s.2 with data := { s.2.data with campgrounds := campCount } }
      (form1.Submit env w1).1
  else w

/-- The synchronization logic of `FetchAndStoreNationalParks`, from the
catalog fetch to the end of the park loop: the world after and the error
returned. -/
def syncParks (env : Env) (w : World) : World × Option Err :=
  let url := parksURL env
  let w1 := w.tick (.httpGet url)
  match env.httpGet w.clock url with
  | none => (w1, some .network)
  | some resp =>
    match resp.body.parks with
    | none => (w1, some .decode)
    | some data =>
      match findCollection env w1 "parks".toList with
      | (w2, false) => (w2, some .notFound)
      | (w2, true) => (data.foldl (parkLoopBody env) w2, none)

/-- Source `FetchAndStoreNationalParks`, one invocation running alone from a
given value of the flag `isRunning`: the world after, the flag after, and the
error returned. -/
def FetchAndStoreNationalParks (env : Env) (isRunning : Bool) (w : World) :
    World × Bool × Option Err :=
  if isRunning then (w, isRunning, none)
  else
    let r := syncParks env w
    (r.1, false, r.2)

/-! ## Alert Client and Alert Refresher: `FetchParkAlerts`, `FetchAlerts` -/

/-- The request URL of `FetchParkAlerts`. -/
def alertsURL (env : Env) (parkCode : Str) : Str :=
  "https://developer.nps.gov/api/v1/alerts?parkCode=".toList ++ parkCode
    ++ "&api_key=".toList ++ env.NPS_API_KEY

/-- Source `FetchParkAlerts`: the world after, the alerts (a `nil` slice is the
empty list) and the error. -/
def FetchParkAlerts (env : Env) (w : World) (parkCode : Str) :
    World × List Alert × Option Err :=
  let url := alertsURL env parkCode
  let w1 := w.tick (.httpGet url)
  match env.httpGet w.clock url with
  | none => (w1, [], some .network)
  | some resp =>
    -- `err` is `nil` from here on
    if resp.StatusCode ≠ StatusOK then (w1, [], none)
    else
      match resp.body.alerts with
      | none => (w1, [], some .decode)
      | some data =>
        (w1, data.map (fun alert =>
          { Title := alert.Title, Description := alert.Description,
            Category := alert.Category, Url := alert.Url }), none)

/-- `app.Dao().Delete(alert)`: the flag is `err == nil`. -/
def deleteAlert (env : Env) (w : World) (alert : AlertRecord) : World × Bool :=
  if env.dbOk w.clock then
    ({ clock := w.clock + 1,
       store := { w.store with alerts := w.store.alerts.filter fun r => r.Id ≠ alert.Id },
       trace := w.trace ++ [.deleteAlert alert true] }, true)
  else (w.tick (.deleteAlert alert false), false)

/-- The deletion loop of `FetchAlerts`: it returns at the first failure. -/
def deleteAlertsLoop (env : Env) : World → List AlertRecord → World × Option Err
  | w, [] => (w, none)
  | w, alert :: rest =>
    match deleteAlert env w alert with
    | (w1, false) => (w1, some .persist)
    | (w1, true) => deleteAlertsLoop env w1 rest

/-- The body of the inner loop of `FetchAlerts`: one alert saved as a new
record of the park `parkId`. -/
def alertLoopBody (env : Env) (parkId : Str) (w : World) (alert : Alert) : World :=
  let data : AlertRecord :=
    { Id := [], title := alert.Title, description := alert.Description,
      category := alert.Category, url := alert.Url, park := parkId }
  if env.submitOk w.clock then
    let saved : AlertRecord := { data with Id := env.newId w.clock }
    { clock := w.clock + 1, store := { w.store with alerts := w.store.alerts ++ [saved] },
      trace := w.trace ++ [.submitAlert saved true] }
  else w.tick (.submitAlert data false)

/-- The body of the park loop of `FetchAlerts`. -/
def alertParkLoopBody (env : Env) (w : World) (park : ParkRecord) : World :=
  let parkCode := park.parkCode
  match FetchParkAlerts env w parkCode with
  | (w1, _, some _) => w1
  | (w1, alerts, none) => alerts.foldl (alertLoopBody env park.Id) w1

/-- `FindRecordsByExpr(collection, nil)` on the alerts: `none` is the error. -/
def findAllAlerts (env : Env) (w : World) : World × Option (List AlertRecord) :=
  (w.tick (.findAll "alerts".toList), if env.dbOk w.clock then some w.store.alerts else none)

/-- `FindRecordsByExpr("parks", nil)`: `none` is the error. -/
def findAllParks (env : Env) (w : World) : World × Option (List ParkRecord) :=
  (w.tick (.findAll "parks".toList), if env.dbOk w.clock then some w.store.parks else none)

/-- Source `FetchAlerts`: the world after and the error returned. -/
def FetchAlerts (env : Env) (w : World) : World × Option Err :=
  match findCollection env w "alerts".toList with
  | (w1, false) => (w1, some .notFound)
  | (w1, true) =>
    match findAllAlerts env w1 with
    | (w2, none) => (w2, some .persist)
    | (w2, some alerts) =>
      match deleteAlertsLoop env w2 alerts with
      | (w3, some e) => (w3, some e)
      | (w3, none) =>
        match findAllParks env w3 with
        | (w4, none) => (w4, some .persist)
        | (w4, some parks) => (parks.foldl (alertParkLoopBody env) w4, none)

/-! ## Single-Flight Guard: `mu` and `isRunning`

Concurrent invocations of `FetchAndStoreNationalParks` are interleaved at the
statements that touch the shared variables `mu` and `isRunning`. -/

/-- Where an invocation of `FetchAndStoreNationalParks` stands.
* `atLock`: about to execute `mu.Lock()`;
* `atCheck`: holding `mu`, about to test `if isRunning`;
* `atSet`: about to execute `isRunning = true`;
* `atBody`: about to run the synchronization logic (catalog fetch, park loop);
* `atReset err`: the logic returned `err`; the deferred `isRunning = false` is next;
* `atUnlock ran err`: the deferred `mu.Unlock()` is next; `ran` tells whether
  the synchronization logic was run;
* `returned ran err`: the invocation has returned `err`. -/
inductive Pc where
  | atLock
  | atCheck
  | atSet
  | atBody
  | atReset (err : Option Err)
  | atUnlock (ran : Bool) (err : Option Err)
  | returned (ran : Bool) (err : Option Err)
  deriving DecidableEq, Repr

/-- The shared state and the invocations `T` in flight: the holder of `mu`,
the flag `isRunning`, the position of each invocation, the world, and the
number of executions of the synchronization logic so far. -/
structure Sys (T : Type) where
  mu : Option T
  isRunning : Bool
  pc : T → Pc
  world : World
  runs : Nat

/-- Move invocation `t` to position `p`. -/
def Sys.goto {T : Type} [DecidableEq T] (s : Sys T) (t : T) (p : Pc) : Sys T :=
  { s with pc := fun x => if x = t then p else s.pc x }

/-- The state before any invocation has started. -/
def Sys.init (T : Type) (w : World) : Sys T :=
  { mu := none, isRunning := false, pc := fun _ => .atLock, world := w, runs := 0 }

/-- One step of invocation `t`; `none` when `t` cannot move: it has returned,
or it waits in `mu.Lock()` for the mutex to be released. -/
def step {T : Type} [DecidableEq T] (env : Env) (t : T) (s : Sys T) : Option (Sys T) :=
  match s.pc t with
  | .atLock => if s.mu.isNone then some ({ s with mu := some t }.goto t .atCheck) else none
  | .atCheck =>
    if s.isRunning then some (s.goto t (.atUnlock false none)) else some (s.goto t .atSet)
  | .atSet => some ({ s with isRunning := true }.goto t .atBody)
  | .atBody =>
    let r := syncParks env s.world
    some ({ s with world := r.1, runs := s.runs + 1 }.goto t (.atReset r.2))
  | .atReset err => some ({ s with isRunning := false }.goto t (.atUnlock true err))
  | .atUnlock ran err => some ({ s with mu := none }.goto t (.returned ran err))
  | .returned _ _ => none

/-- Run a schedule: the invocation named at each point moves if it can. -/
def run {T : Type} [DecidableEq T] (env : Env) : List T → Sys T → Sys T
  | [], s => s
  | t :: rest, s => run env rest ((step env t s).getD s)

/-- The positions at which an invocation holds `mu`. -/
def Pc.holdsMu : Pc → Bool
  | .atCheck | .atSet | .atBody | .atReset _ | .atUnlock _ _ => true
  | _ => false

/-- The positions reached only by running the synchronization logic. -/
def Pc.ranBody : Pc → Bool
  | .atReset _ | .atUnlock true _ | .returned true _ => true
  | _ => false

/-- The positions reached through the branch `if isRunning` that returns
without running the logic. -/
def Pc.skipped : Pc → Bool
  | .atUnlock false _ | .returned false _ => true
  | _ => false

/-- The invariant of the guard: an invocation at a position that holds `mu` is
the holder; the flag is set only while the holder is between `isRunning = true`
and the deferred reset; nobody has taken the early return; and (for two
invocations, read through `count`) `runs` counts the invocations that ran the
logic. -/
structure Sys.Good {T : Type} (s : Sys T) : Prop where
  holder : ∀ t, (s.pc t).holdsMu = true → s.mu = some t
  flag : s.isRunning = true → ∃ t, s.mu = some t ∧ (s.pc t = .atBody ∨ ∃ e, s.pc t = .atReset e)
  noSkip : ∀ t, (s.pc t).skipped = false

/-- The number of the two invocations that have run the synchronization logic. -/
def ranCount (s : Sys Bool) : Nat :=
  (if (s.pc false).ranBody then 1 else 0) + (if (s.pc true).ranBody then 1 else 0)

/-! ## Weather Client: `parseWeatherData`, `kelvinToFahrenheit`, `kelvinToCelsius` -/

/-- A Go `float64` value, by its IEEE-754 bit pattern. -/
structure Float64 where
  bits : Nat
  deriving DecidableEq, Repr

/-- The `float64` operations the weather code uses, left to the platform:
the value of a decimal constant, subtraction, multiplication, addition, and
`fmt.Sprintf("%.1f", x)`. -/
structure FloatOps where
  lit : Str → Float64
  sub : Float64 → Float64 → Float64
  mul : Float64 → Float64 → Float64
  add : Float64 → Float64 → Float64
  sprintf1 : Float64 → Str

/-- Source `kelvinToFahrenheit`. -/
def kelvinToFahrenheit (ops : FloatOps) (k : Float64) : Str :=
  ops.sprintf1
    (ops.add (ops.mul (ops.sub k (ops.lit "273.15".toList)) (ops.lit "1.8".toList))
      (ops.lit "32".toList))

/-- Source `kelvinToCelsius`. -/
def kelvinToCelsius (ops : FloatOps) (k : Float64) : Str :=
  ops.sprintf1 (ops.sub k (ops.lit "273.15".toList))

/-- Source `WeatherDate`. -/
structure WeatherDate where
  Date : Str
  TemperatureDayF : Str
  TemperatureDayC : Str
  TemperatureNightF : Str
  TemperatureNightC : Str
  WeatherIcon : Str
  LastUpdated : Str
  deriving DecidableEq, Repr

/-- An element of `result.Daily` in `parseWeatherData`: `dt`, `temp.day`,
`temp.night` and the icon codes of the array `weather`. -/
structure Daily where
  Dt : Int
  TempDay : Float64
  TempNight : Float64
  Weather : List Str
  deriving DecidableEq, Repr

/-- The answer to the forecast request, as `parseWeatherData` reads it:
whether `io.ReadAll` could read the body, and what `json.Unmarshal` decodes
from it, `none` being a decoding error. -/
structure ForecastResponse where
  readOk : Bool
  daily : Option (List Daily)

/-- Everything outside `parseWeatherData`: the answer to the request (`none`
is a transport error), `time.Unix(dt, 0).Format("Jan 2")`, and
`time.Now().Format(time.RFC3339)` at each turn of the loop. -/
structure WeatherEnv where
  httpGet : Str → Option ForecastResponse
  formatDate : Int → Str
  now : Nat → Str

/-- How a Go call ends: with a value, with an error, or in a run-time panic. -/
inductive Outcome (α : Type) where
  | ok (value : α)
  | error (e : Err)
  | panics
  deriving DecidableEq, Repr

/-- The `fmt.Sprintf` of the icon URL in `parseWeatherData`. -/
def iconURL (icon : Str) : Str :=
  "https://openweathermap.org/img/wn/".toList ++ icon ++ "@2x.png".toList

/-- The `WeatherDate` appended at turn `i` of the loop for the element `daily`,
whose first icon code is `icon`. -/
def weatherDateOf (ops : FloatOps) (wenv : WeatherEnv) (i : Nat) (daily : Daily)
    (icon : Str) : WeatherDate :=
  { Date := wenv.formatDate daily.Dt
    TemperatureDayF := kelvinToFahrenheit ops daily.TempDay
    TemperatureDayC := kelvinToCelsius ops daily.TempDay
    TemperatureNightF := kelvinToFahrenheit ops daily.TempNight
    TemperatureNightC := kelvinToCelsius ops daily.TempNight
    WeatherIcon := iconURL icon
    LastUpdated := wenv.now i }

/-- The loop of `parseWeatherData` from turn `i`, with `weatherDates` built so
far.  The index expression `daily.Weather[0]` panics on an empty array. -/
def weatherLoop (ops : FloatOps) (wenv : WeatherEnv) :
    Nat → List WeatherDate → List Daily → Outcome (List WeatherDate)
  | _, weatherDates, [] => .ok weatherDates
  | i, weatherDates, daily :: rest =>
    match daily.Weather[0]? with
    | none => .panics
    | some icon =>
      weatherLoop ops wenv (i + 1) (weatherDates ++ [weatherDateOf ops wenv i daily icon]) rest

/-- Source `parseWeatherData`. -/
def parseWeatherData (ops : FloatOps) (wenv : WeatherEnv) (apiUrl : Str) :
    Outcome (List WeatherDate) :=
  match wenv.httpGet apiUrl with
  | none => .error .network
  | some resp =>
    if !resp.readOk then .error .network
    else
      match resp.daily with
      | none => .error .decode
      | some daily => weatherLoop ops wenv 0 [] daily

/-- The sequence the specification describes for the days `daily` from turn
`i`: one `WeatherDate` per day, in the order of the days, each derived from its
day and the first icon code of that day. -/
def expectedWeather (ops : FloatOps) (wenv : WeatherEnv) : Nat → List Daily → List WeatherDate
  | _, [] => []
  | i, d :: rest =>
    weatherDateOf ops wenv i d (d.Weather.headD []) :: expectedWeather ops wenv (i + 1) rest

/-! ### IEEE-754 binary64: the `float64` operations, each rounded to nearest even -/

/-- The value a `float64` stands for: a signed fraction `num / den` (a signed
zero when `num = 0`), an infinity, or a NaN. -/
inductive FVal where
  | finite (neg : Bool) (num den : Nat)
  | inf (neg : Bool)
  | nan
  deriving DecidableEq, Repr

/-- The power `2^k`, as a shift. -/
def pow2 (k : Nat) : Nat := 1 <<< k

/-- The value of a bit pattern: sign bit, 11 exponent bits, 52 fraction bits. -/
def decodeF64 (x : Float64) : FVal :=
  let neg : Bool := x.bits / 2 ^ 63 % 2 = 1
  let ex := x.bits / 2 ^ 52 % 2 ^ 11
  let frac := x.bits % 2 ^ 52
  if ex = 2047 then (if frac = 0 then .inf neg else .nan)
  else if ex = 0 then .finite neg frac (pow2 1074)
  else if 1075 ≤ ex then .finite neg ((2 ^ 52 + frac) * pow2 (ex - 1075)) 1
  else .finite neg (2 ^ 52 + frac) (pow2 (1075 - ex))

/-- The sign bit of a bit pattern. -/
def signBit (neg : Bool) : Nat := if neg then 2 ^ 63 else 0

/-- The position of the leading bit of `n`, by halving at most `fuel` times. -/
def leadingBit : Nat → Nat → Nat
  | 0, _ => 0
  | fuel + 1, n => if n < 2 then 0 else leadingBit fuel (n / 2) + 1

/-- The exponent `E` with `2^E <= num/den < 2^(E+1)`, for `num, den > 0`. -/
def floorLog2 (num den : Nat) : Int :=
  let e0 : Int := (leadingBit num num : Int) - (leadingBit den den : Int)
  let ge : Bool := if 0 ≤ e0 then den * pow2 e0.toNat ≤ num else den ≤ num * pow2 (-e0).toNat
  if ge then e0 else e0 - 1

/-- Round the signed fraction `num / den` to the nearest `float64`, ties to
the even significand; the bit pattern of the result. -/
def roundF64 (neg : Bool) (num den : Nat) : Float64 :=
  if num = 0 ∨ den = 0 then { bits := signBit neg }
  else
    let q : Int := max (floorLog2 num den - 52) (-1074)
    let n1 : Nat := if 0 ≤ q then num else num * pow2 (-q).toNat
    let d1 : Nat := if 0 ≤ q then den * pow2 q.toNat else den
    let m0 := n1 / d1
    let r := n1 % d1
    let m : Nat := if d1 < 2 * r ∨ (2 * r = d1 ∧ m0 % 2 = 1) then m0 + 1 else m0
    let m2 : Nat := if m = 2 ^ 53 then 2 ^ 52 else m
    let q2 : Int := if m = 2 ^ 53 then q + 1 else q
    if 972 ≤ q2 then { bits := signBit neg + 2047 * 2 ^ 52 }
    else { bits := signBit neg + (q2 + 1074).toNat * 2 ^ 52 + m2 }

/-- The bit pattern of a value that needs no rounding. -/
def encodeF64 : FVal → Float64
  | .finite neg num den => roundF64 neg num den
  | .inf neg => { bits := signBit neg + 2047 * 2 ^ 52 }
  | .nan => { bits := 2047 * 2 ^ 52 + 2 ^ 51 }

/-- The exact sum of two signed fractions, rounded; an exact zero sum is `+0`
unless both terms are negative zeros. -/
def addFinite (n1 : Bool) (a b : Nat) (n2 : Bool) (c d : Nat) : Float64 :=
  if n1 = n2 then roundF64 n1 (a * d + c * b) (b * d)
  else if c * b < a * d then roundF64 n1 (a * d - c * b) (b * d)
  else if a * d < c * b then roundF64 n2 (c * b - a * d) (b * d)
  else { bits := 0 }

/-- IEEE-754 addition, round to nearest even. -/
def f64add (x y : Float64) : Float64 :=
  match decodeF64 x, decodeF64 y with
  | .nan, _ => encodeF64 .nan
  | _, .nan => encodeF64 .nan
  | .inf n1, .inf n2 => if n1 = n2 then encodeF64 (.inf n1) else encodeF64 .nan
  | .inf n1, .finite _ _ _ => encodeF64 (.inf n1)
  | .finite _ _ _, .inf n2 => encodeF64 (.inf n2)
  | .finite n1 a b, .finite n2 c d => addFinite n1 a b n2 c d

/-- The value negated. -/
def f64neg (x : Float64) : Float64 :=
  match decodeF64 x with
  | .nan => x
  | _ => { bits := if x.bits / 2 ^ 63 % 2 = 1 then x.bits - 2 ^ 63 else x.bits + 2 ^ 63 }

/-- IEEE-754 subtraction, round to nearest even. -/
def f64sub (x y : Float64) : Float64 := f64add x (f64neg y)

/-- IEEE-754 multiplication, round to nearest even. -/
def f64mul (x y : Float64) : Float64 :=
  match decodeF64 x, decodeF64 y with
  | .nan, _ => encodeF64 .nan
  | _, .nan => encodeF64 .nan
  | .inf n1, .inf n2 => encodeF64 (.inf (n1 != n2))
  | .inf n1, .finite n2 c _ => if c = 0 then encodeF64 .nan else encodeF64 (.inf (n1 != n2))
  | .finite n1 a _, .inf n2 => if a = 0 then encodeF64 .nan else encodeF64 (.inf (n1 != n2))
  | .finite n1 a b, .finite n2 c d => roundF64 (n1 != n2) (a * c) (b * d)

/-- The `float64` of an unsigned decimal constant `digits` or `digits.digits`:
its exact value, rounded. -/
def f64lit (s : Str) : Float64 :=
  let fracDigits := (s.dropWhile fun c => c ≠ '.').drop 1
  roundF64 false (digitsValue (s.filter isDigit)) (10 ^ fracDigits.length)

/-- The number of tenths nearest to `num / den`, ties to the even number. -/
def nearestTenths (num den : Nat) : Nat :=
  let f := 10 * num / den
  let r := 10 * num % den
  if den < 2 * r ∨ (2 * r = den ∧ f % 2 = 1) then f + 1 else f

/-- A signed fraction written with exactly one decimal place: the sign, the
integer digits, the point and one digit. -/
def renderTenths (neg : Bool) (num den : Nat) : Str :=
  (if neg then ['-'] else []) ++ Nat.toDigits 10 (nearestTenths num den / 10)
    ++ ['.', Nat.digitChar (nearestTenths num den % 10)]

/-- Go `fmt.Sprintf("%.1f", x)`. -/
def f64sprintf1 (x : Float64) : Str :=
  match decodeF64 x with
  | .finite neg num den => renderTenths neg num den
  | .inf neg => if neg then "-Inf".toList else "+Inf".toList
  | .nan => "NaN".toList

/-- The `float64` operations of IEEE-754 binary64, each operation rounded to
nearest even on its own, as Go compiles them where it does not fuse. -/
def ieeeOps : FloatOps :=
  { lit := f64lit, sub := f64sub, mul := f64mul, add := f64add, sprintf1 := f64sprintf1 }

/-- IEEE-754 fused multiply-add: `x * y + z` rounded once.  Go may compile
`x*y + z` to it. -/
def f64fma (x y z : Float64) : Float64 :=
  match decodeF64 x, decodeF64 y, decodeF64 z with
  | .finite n1 a b, .finite n2 c d, .finite n3 e f =>
    if a * c = 0 then f64add (f64mul x y) z
    else addFinite (n1 != n2) (a * c) (b * d) n3 e f
  | _, _, _ => f64add (f64mul x y) z

/-- Source `kelvinToFahrenheit`, with `x*1.8 + 32` compiled to a fused
multiply-add. -/
def kelvinToFahrenheitFused (k : Float64) : Str :=
  f64sprintf1 (f64fma (f64sub k (f64lit "273.15".toList)) (f64lit "1.8".toList)
    (f64lit "32".toList))

/-! ### The alert set, as the specification reads it -/

/-- What an alert record says: its title, description, category and url, as
an `Alert`, and the id of its park. -/
def AlertRecord.content (r : AlertRecord) : Alert × Str :=
  ({ Title := r.title, Description := r.description, Category := r.category, Url := r.url },
   r.park)

/-- The alerts fetched for a park from the answer `resp` to the request of
`FetchParkAlerts`: those of a decoded 200 answer, none otherwise. -/
def alertsOfAnswer (resp : Option Response) : List Alert :=
  match resp with
  | none => []
  | some r => if r.StatusCode = StatusOK then r.body.alerts.getD [] else []

/-- The union, over the stored parks in order, of the alerts fetched for each
park, each tied to the id of that park; `fetch` gives the answer to the request
for a park code. -/
def expectedAlerts (fetch : Str → Option Response) (parks : List ParkRecord) :
    List (Alert × Str) :=
  parks.flatMap fun park => (alertsOfAnswer (fetch park.parkCode)).map fun a => (a, park.Id)

/-! ## Example inputs -/

/-- A body that no decoder accepts. -/
def emptyBody : Body := { parks := none, campgrounds := none, alerts := none, image := none }

/-- An environment in which every request gets the answer `resp` and every
store operation succeeds. -/
def constEnv (resp : Option Response) : Env :=
  { NPS_API_KEY := "key".toList, MAPBOX_ACCESS_TOKEN := "token".toList,
    httpGet := fun _ _ => resp, dbOk := fun _ => true, submitOk := fun _ => true,
    newId := fun _ => "newid".toList, fileName := fun _ n => n,
    jpegEncode := fun _ => some [1], pngEncode := fun _ => some [2] }

/-- A stored campground `c1` of park `p1`, with one image and its map image. -/
def storedCamp : CampRecord :=
  { newCampRecord with
    Id := "r1".toList, campId := "c1".toList, name := "Old Name".toList, parkId := "p1".toList,
    reservable := 3, images := ["lake_Ab12.jpg".toList], mapImage := "map_Zz09.png".toList }

/-- The catalog entry of campground `c1`, renamed upstream, with the image
already stored. -/
def incomingCamp : CampEntry :=
  { Id := "c1".toList, Name := "New Name".toList, Description := "d".toList,
    Latitude := "1".toList, Longitude := "2".toList, ReservationInfo := [],
    ReservationURL := [], DirectionsOverview := [], WeatherOverview := [],
    Reservable := "7".toList, FirstComeFirstServe := "0".toList,
    Images := ["https://x.org/img/lake.jpg".toList] }

/-- A world whose store holds `storedCamp`. -/
def campWorld : World :=
  { clock := 0, store := { parks := [], campgrounds := [storedCamp], alerts := [] }, trace := [] }

/-- The campground catalog answers 200 with the entry `incomingCamp`. -/
def campEnv : Env :=
  constEnv (some { StatusCode := 200, body := { emptyBody with campgrounds := some [incomingCamp] } })

/-- A stored park `yose` with a campground count of 5. -/
def storedPark : ParkRecord :=
  { newParkRecord with
    Id := "p1".toList, parkCode := "yose".toList, name := "Yosemite".toList, campgrounds := 5 }

/-- The catalog entry of park `yose`. -/
def incomingPark : ParkEntry :=
  { FullName := "Yosemite".toList, Description := [], Latitude := [], Longitude := [],
    States := [], Designation := "National Park".toList, ParkCode := "yose".toList,
    DirectionsInfo := [], WeatherInfo := [], Images := [] }

/-- A world whose store holds `storedPark`. -/
def parkWorld : World :=
  { clock := 0, store := { parks := [storedPark], campgrounds := [], alerts := [] }, trace := [] }

/-- Every request is answered 404 Not Found, with a body no decoder accepts. -/
def notFoundEnv : Env := constEnv (some { StatusCode := 404, body := emptyBody })

/-- A decodable image of 2 by 2 pixels. -/
def placeholderImage : Image := { dx := 2, dy := 2, pixels := 7 }

/-- Every request is answered 404 Not Found with a body that is a decodable
image. -/
def placeholderEnv : Env :=
  constEnv (some { StatusCode := 404, body := { emptyBody with image := some placeholderImage } })

/-- An alert of the upstream catalog. -/
def freshAlert : Alert :=
  { Title := "Road closed".toList, Description := "d".toList, Category := "Closure".toList,
    Url := "https://x.org/a".toList }

/-- An alert record stored by an earlier run. -/
def staleAlert : AlertRecord :=
  { Id := "a0".toList, title := "Old".toList, description := [], category := [], url := [],
    park := "p1".toList }

/-- A world whose store holds the park `storedPark` and the alert `staleAlert`. -/
def alertWorld : World :=
  { clock := 0, store := { parks := [storedPark], campgrounds := [], alerts := [staleAlert] },
    trace := [] }

/-- The answer of the alert catalog: 200 with the alert `freshAlert`. -/
def alertAnswer : Option Response :=
  some { StatusCode := 200, body := { emptyBody with alerts := some [freshAlert] } }

/-- The alert catalog answers `alertAnswer` and every store operation succeeds. -/
def alertEnv : Env := constEnv alertAnswer

/-- As `alertEnv`, but `form.Submit` fails. -/
def rejectingEnv : Env := { alertEnv with submitOk := fun _ => false }

/-- The alert records of `w2` are those of `w1` followed by new ones, which
say a part of `exp` in order, and all of `exp` when every `form.Submit`
succeeds; the parks are the same. -/
def Grows (env : Env) (exp : List (Alert × Str)) (w1 w2 : World) : Prop :=
  ∃ new : List AlertRecord,
    w2.store.alerts = w1.store.alerts ++ new ∧
    (new.map AlertRecord.content).Sublist exp ∧
    ((∀ t, env.submitOk t = true) → new.map AlertRecord.content = exp) ∧
    w2.store.parks = w1.store.parks

/-- Float operations that keep the bit pattern of their first argument and
print nothing of it. -/
def plainOps : FloatOps :=
  { lit := fun _ => { bits := 0 }, sub := fun x _ => x, mul := fun x _ => x,
    add := fun x _ => x, sprintf1 := fun _ => "0.0".toList }

/-- A forecast day whose `weather` array is empty. -/
def bareDay : Daily := { Dt := 0, TempDay := { bits := 0 }, TempNight := { bits := 0 }, Weather := [] }

/-- A forecast day with one icon code. -/
def sunnyDay : Daily :=
  { Dt := 86400, TempDay := { bits := 1 }, TempNight := { bits := 2 }, Weather := ["01d".toList] }

/-- The forecast answers with the days `days`, decoded without error. -/
def forecastEnv (days : List Daily) : WeatherEnv :=
  { httpGet := fun _ => some { readOk := true, daily := some days },
    formatDate := fun _ => "Jan 1".toList, now := fun _ => "2024-01-01T00:00:00Z".toList }

/-! ## Lemmas on the string helpers -/

theorem lastIndexByteLoop_append (a b : Str) (c : Char) (hb : c ∉ b) (k : Nat)
    (hk : k ≤ b.length) :
    lastIndexByteLoop (a ++ c :: b) c (a.length + 1 + k) = some a.length := by
  induction k with
  | zero =>
    have hget : (a ++ c :: b)[a.length]? = some c := by
      rw [List.getElem?_append_right (le_refl _)]; simp
    show lastIndexByteLoop (a ++ c :: b) c (a.length + 1) = some a.length
    rw [lastIndexByteLoop, hget, if_pos rfl]
  | succ k ih =>
    have hk' : k < b.length := hk
    have hget : (a ++ c :: b)[a.length + 1 + k]? = some (b.get ⟨k, hk'⟩) := by
      rw [List.getElem?_append_right (by omega)]
      have : a.length + 1 + k - a.length = k + 1 := by omega
      rw [this]
      simp
    have hne : b.get ⟨k, hk'⟩ ≠ c := fun h => hb (h ▸ List.get_mem b k hk')
    have : a.length + 1 + (k + 1) = (a.length + 1 + k) + 1 := by omega
    rw [this, lastIndexByteLoop, hget]
    simp only [Option.some.injEq, hne, if_false]
    exact ih (by omega)

theorem lastIndexByte_append (a b : Str) (c : Char) (hb : c ∉ b) :
    lastIndexByte (a ++ c :: b) c = some a.length := by
  have h := lastIndexByteLoop_append a b c hb b.length (le_refl _)
  unfold lastIndexByte
  have : (a ++ c :: b).length = a.length + 1 + b.length := by simp; omega
  rw [this]; exact h

theorem stripTrailingSlashes_concat (a : Str) (c : Char) (hc : c ≠ '/') :
    stripTrailingSlashes (a ++ [c]) (a ++ [c]).length = a ++ [c] := by
  have hlen : (a ++ [c]).length = a.length + 1 := by simp
  rw [hlen, stripTrailingSlashes]
  have hget : (a ++ [c])[a.length]? = some c := by
    rw [List.getElem?_append_right (le_refl _)]; simp
  rw [hget]
  simp only [Option.some.injEq, hc, if_false]
  rw [← hlen, List.take_length]

theorem pathBase_append_slash (p f : Str) (hf : f ≠ []) (hs : '/' ∉ f) :
    pathBase (p ++ '/' :: f) = f := by
  obtain ⟨g, c, rfl⟩ : ∃ g c, f = g ++ [c] := by
    refine ⟨f.dropLast, f.getLast hf, ?_⟩
    exact (List.dropLast_append_getLast hf).symm
  have hc : c ≠ '/' := fun h => hs (by simp [h])
  have hstrip : stripTrailingSlashes (p ++ '/' :: (g ++ [c])) (p ++ '/' :: (g ++ [c])).length
      = p ++ '/' :: (g ++ [c]) := by
    have h := stripTrailingSlashes_concat (p ++ '/' :: g) c hc
    simpa using h
  unfold pathBase
  rw [if_neg (by simp)]
  simp only [hstrip, lastIndexByte_append p (g ++ [c]) '/' hs]
  have hdrop : List.drop (p.length + 1) (p ++ '/' :: (g ++ [c])) = g ++ [c] := by
    rw [List.drop_append_eq_append_drop]
    simp
  rw [hdrop, if_neg (by simp)]

theorem quick_strip_url_append_slash (p f : Str) (hf : f ≠ []) (hs : '/' ∉ f) :
    quick_strip_url (p ++ '/' :: f) = trimSuffix f (pathExt f) := by
  unfold quick_strip_url
  simp only [pathBase_append_slash p f hf hs]

theorem isDuplicate_iff (u : Str) (L : List Str) :
    isDuplicate u L = true ↔ ∃ e ∈ L, Snakecase (quick_strip_url u) = quick_strip e := by
  induction L with
  | nil => simp [isDuplicate]
  | cons e rest ih =>
    unfold isDuplicate
    by_cases h : Snakecase (quick_strip_url u) = quick_strip e
    · simp [h]
    · simp [h, ih]

theorem quick_stripLoop_append (k t : Str) (ht : '_' ∉ t) (j : Nat) (hj : j ≤ t.length) :
    quick_stripLoop (k ++ '_' :: t) (k.length + 1 + j) = k := by
  induction j with
  | zero =>
    have hget : (k ++ '_' :: t)[k.length]? = some '_' := by
      rw [List.getElem?_append_right (le_refl _)]; simp
    show quick_stripLoop (k ++ '_' :: t) (k.length + 1) = k
    rw [quick_stripLoop, hget, if_pos rfl]
    simp
  | succ j ih =>
    have hj' : j < t.length := hj
    have hget : (k ++ '_' :: t)[k.length + 1 + j]? = some (t.get ⟨j, hj'⟩) := by
      rw [List.getElem?_append_right (by omega)]
      have : k.length + 1 + j - k.length = j + 1 := by omega
      rw [this]
      simp
    have hne : t.get ⟨j, hj'⟩ ≠ '_' := fun h => ht (h ▸ List.get_mem t j hj')
    have : k.length + 1 + (j + 1) = (k.length + 1 + j) + 1 := by omega
    rw [this, quick_stripLoop, hget]
    simp only [Option.some.injEq, hne, if_false]
    exact ih (by omega)

theorem quick_strip_append (k t : Str) (ht : '_' ∉ t) : quick_strip (k ++ '_' :: t) = k := by
  have h := quick_stripLoop_append k t ht t.length (le_refl _)
  unfold quick_strip
  have : (k ++ '_' :: t).length = k.length + 1 + t.length := by simp; omega
  rw [this]; exact h

theorem quick_stripLoop_no_underscore (s : Str) (hs : '_' ∉ s) (n : Nat) :
    quick_stripLoop s n = s := by
  induction n with
  | zero => rfl
  | succ n ih =>
    rw [quick_stripLoop]
    have hne : s[n]? ≠ some '_' := by
      intro h
      exact hs (List.getElem?_mem h)
    rw [if_neg hne]
    exact ih

theorem quick_strip_no_underscore (s : Str) (hs : '_' ∉ s) : quick_strip s = s :=
  quick_stripLoop_no_underscore s hs s.length

theorem isDuplicate_of_stored (u t : Str) (current : List Str) (ht : '_' ∉ t)
    (hmem : Snakecase (quick_strip_url u) ++ '_' :: t ∈ current) :
    isDuplicate u current = true :=
  (isDuplicate_iff u current).2 ⟨_, hmem, (quick_strip_append _ t ht).symm⟩

theorem foldl_skip {σ : Type} (f : σ → Str → σ) (u : Str) (hu : ∀ s, f s u = s)
    (imgs : List Str) (s : σ) :
    imgs.foldl f s = (imgs.filter fun v => decide (v ≠ u)).foldl f s := by
  induction imgs generalizing s with
  | nil => rfl
  | cons v rest ih =>
    by_cases hv : v = u
    · subst hv
      simp only [List.foldl_cons, hu, ne_eq, not_true_eq_false, decide_False, Bool.false_eq_true,
        not_false_eq_true, List.filter_cons_of_neg]
      exact ih s
    · simp only [List.foldl_cons, ne_eq, hv, not_false_eq_true, decide_True, List.filter_cons_of_pos]
      exact ih _

/-! ## Lemmas on the single-flight guard -/

theorem Sys.init_good (T : Type) (w : World) : (Sys.init T w).Good :=
  ⟨fun _ h => by simp [Sys.init, Pc.holdsMu] at h, fun h => by simp [Sys.init] at h,
   fun _ => rfl⟩

theorem step_good {T : Type} [DecidableEq T] (env : Env) (t : T) (s s' : Sys T)
    (hg : s.Good) (h : step env t s = some s') : s'.Good := by
  obtain ⟨hh, hf, hn⟩ := hg
  unfold step at h
  split at h
  · -- `mu.Lock()`
    rename_i hpc
    split at h
    · rename_i hmu
      have hmu' : s.mu = none := by simpa using hmu
      cases h
      refine ⟨fun x hx => ?_, fun hr => ?_, fun x => ?_⟩
      · by_cases hxt : x = t
        · subst hxt; rfl
        · have := hh x (by simpa [Sys.goto, hxt] using hx)
          rw [hmu'] at this; cases this
      · obtain ⟨u, hu, _⟩ := hf hr
        rw [hmu'] at hu; cases hu
      · by_cases hxt : x = t
        · simp [Sys.goto, hxt, Pc.skipped]
        · simpa [Sys.goto, hxt] using hn x
    · cases h
  · -- `if isRunning`
    rename_i hpc
    have hmu : s.mu = some t := hh t (by rw [hpc]; rfl)
    split at h
    · rename_i hr
      obtain ⟨u, hu, hpu⟩ := hf hr
      rw [hmu] at hu; cases hu
      rw [hpc] at hpu
      rcases hpu with hpu | ⟨e, hpu⟩ <;> cases hpu
    · rename_i hr
      cases h
      refine ⟨fun x hx => ?_, fun hr' => ?_, fun x => ?_⟩
      · by_cases hxt : x = t
        · subst hxt; exact hmu
        · exact hh x (by simpa [Sys.goto, hxt] using hx)
      · exact absurd hr' hr
      · by_cases hxt : x = t
        · simp [Sys.goto, hxt, Pc.skipped]
        · simpa [Sys.goto, hxt] using hn x
  · -- `isRunning = true`
    rename_i hpc
    have hmu : s.mu = some t := hh t (by rw [hpc]; rfl)
    cases h
    refine ⟨fun x hx => ?_, fun _ => ⟨t, hmu, Or.inl (by simp [Sys.goto])⟩, fun x => ?_⟩
    · by_cases hxt : x = t
      · subst hxt; exact hmu
      · exact hh x (by simpa [Sys.goto, hxt] using hx)
    · by_cases hxt : x = t
      · simp [Sys.goto, hxt, Pc.skipped]
      · simpa [Sys.goto, hxt] using hn x
  · -- the synchronization logic
    rename_i hpc
    have hmu : s.mu = some t := hh t (by rw [hpc]; rfl)
    cases h
    refine ⟨fun x hx => ?_, fun _ => ⟨t, hmu, Or.inr ⟨(syncParks env s.world).2, by simp [Sys.goto]⟩⟩, fun x => ?_⟩
    · by_cases hxt : x = t
      · subst hxt; exact hmu
      · exact hh x (by simpa [Sys.goto, hxt] using hx)
    · by_cases hxt : x = t
      · simp [Sys.goto, hxt, Pc.skipped]
      · simpa [Sys.goto, hxt] using hn x
  · -- deferred `isRunning = false`
    rename_i err hpc
    have hmu : s.mu = some t := hh t (by rw [hpc]; rfl)
    cases h
    refine ⟨fun x hx => ?_, fun hr => ?_, fun x => ?_⟩
    · by_cases hxt : x = t
      · subst hxt; exact hmu
      · exact hh x (by simpa [Sys.goto, hxt] using hx)
    · simp [Sys.goto] at hr
    · by_cases hxt : x = t
      · simp [Sys.goto, hxt, Pc.skipped]
      · simpa [Sys.goto, hxt] using hn x
  · -- deferred `mu.Unlock()`
    rename_i ran err hpc
    have hmu : s.mu = some t := hh t (by rw [hpc]; rfl)
    cases h
    refine ⟨fun x hx => ?_, fun hr => ?_, fun x => ?_⟩
    · by_cases hxt : x = t
      · subst hxt; simp [Sys.goto, Pc.holdsMu] at hx
      · have := hh x (by simpa [Sys.goto, hxt] using hx)
        rw [hmu] at this
        exact absurd (Option.some.inj this).symm hxt
    · obtain ⟨u, hu, hpu⟩ := hf (by simpa [Sys.goto] using hr)
      rw [hmu] at hu; cases hu
      rw [hpc] at hpu
      rcases hpu with hpu | ⟨e, hpu⟩ <;> cases hpu
    · by_cases hxt : x = t
      · have := hn t
        rw [hpc] at this
        cases ran <;> simp_all [Sys.goto, Pc.skipped]
      · simpa [Sys.goto, hxt] using hn x
  · cases h

theorem run_good {T : Type} [DecidableEq T] (env : Env) (sched : List T) (s : Sys T)
    (hg : s.Good) : (run env sched s).Good := by
  induction sched generalizing s with
  | nil => exact hg
  | cons t rest ih =>
    unfold run
    apply ih
    cases h : step env t s with
    | none => exact hg
    | some s' => exact step_good env t s s' hg h

theorem step_runs {T : Type} [DecidableEq T] (env : Env) (t : T) (s s' : Sys T)
    (h : step env t s = some s') :
    (∀ x, x ≠ t → s'.pc x = s.pc x) ∧
    (((s.pc t).ranBody = false ∧ (s'.pc t).ranBody = true ∧ s'.runs = s.runs + 1) ∨
      ((s'.pc t).ranBody = (s.pc t).ranBody ∧ s'.runs = s.runs)) := by
  unfold step at h
  split at h
  · rename_i hpc
    split at h
    · cases h
      exact ⟨fun x hx => by simp [Sys.goto, hx], Or.inr (by simp [Sys.goto, hpc, Pc.ranBody])⟩
    · cases h
  · rename_i hpc
    split at h <;> cases h <;>
      exact ⟨fun x hx => by simp [Sys.goto, hx], Or.inr (by simp [Sys.goto, hpc, Pc.ranBody])⟩
  · rename_i hpc
    cases h
    exact ⟨fun x hx => by simp [Sys.goto, hx], Or.inr (by simp [Sys.goto, hpc, Pc.ranBody])⟩
  · rename_i hpc
    cases h
    exact ⟨fun x hx => by simp [Sys.goto, hx], Or.inl (by simp [Sys.goto, hpc, Pc.ranBody])⟩
  · rename_i err hpc
    cases h
    exact ⟨fun x hx => by simp [Sys.goto, hx], Or.inr (by simp [Sys.goto, hpc, Pc.ranBody])⟩
  · rename_i ran err hpc
    cases h
    refine ⟨fun x hx => by simp [Sys.goto, hx], Or.inr ?_⟩
    cases ran <;> simp [Sys.goto, hpc, Pc.ranBody]
  · cases h

theorem step_ranCount (env : Env) (t : Bool) (s s' : Sys Bool)
    (hc : ranCount s = s.runs) (h : step env t s = some s') : ranCount s' = s'.runs := by
  obtain ⟨hother, hself⟩ := step_runs env t s s' h
  unfold ranCount at hc ⊢
  cases t
  · rw [hother true (by decide)]
    rcases hself with ⟨h1, h2, h3⟩ | ⟨h1, h2⟩
    · rw [h1] at hc; rw [h2, h3]; simp at hc ⊢; omega
    · rw [h1, h2]; exact hc
  · rw [hother false (by decide)]
    rcases hself with ⟨h1, h2, h3⟩ | ⟨h1, h2⟩
    · rw [h1] at hc; rw [h2, h3]; simp at hc ⊢; omega
    · rw [h1, h2]; exact hc

theorem run_ranCount (env : Env) (sched : List Bool) (s : Sys Bool)
    (hc : ranCount s = s.runs) : ranCount (run env sched s) = (run env sched s).runs := by
  induction sched generalizing s with
  | nil => exact hc
  | cons t rest ih =>
    unfold run
    apply ih
    cases h : step env t s with
    | none => exact hc
    | some s' => exact step_ranCount env t s s' hc h

theorem step_blocked {T : Type} [DecidableEq T] (env : Env) (s : Sys T) (hg : s.Good)
    (a b : T) (hab : a ≠ b) (hmu : s.mu = some a) :
    step env b s = none ∧ (s.pc b = .atLock ∨ ∃ ran e, s.pc b = .returned ran e) := by
  have hb : (s.pc b).holdsMu = false := by
    cases hh : (s.pc b).holdsMu with
    | false => rfl
    | true =>
      have := hg.holder b hh
      rw [hmu] at this
      exact absurd (Option.some.inj this) hab
  unfold step
  cases hpc : s.pc b <;> simp_all [Pc.holdsMu]

/-! ## Lemmas on the trace of actions -/

theorem tick_extends (w : World) (e : Effect) : w.trace <+: (w.tick e).trace :=
  ⟨[e], rfl⟩

theorem downloadAndResizeImage_world (env : Env) (w : World) (url : Str) (m : Int) :
    (downloadAndResizeImage env w url m).1 = w.tick (.httpGet url) := by
  unfold downloadAndResizeImage
  cases env.httpGet w.clock url with
  | none => rfl
  | some r =>
    cases h : r.body.image with
    | none => simp [h]
    | some img => cases h2 : env.jpegEncode (resizeRaster img m) <;> simp [h, h2]

theorem getMapImage_world (env : Env) (w : World) (lat lon : Str) (fc : Bool) :
    (getMapImage env w lat lon fc).1 = w.tick (.httpGet (mapImageURL env lat lon fc)) := by
  unfold getMapImage
  simp only
  split
  · rfl
  · split
    · rfl
    · split <;> rfl

theorem getMapImage_extends (env : Env) (w : World) (lat lon : Str) (fc : Bool) :
    w.trace <+: (getMapImage env w lat lon fc).1.trace := by
  rw [getMapImage_world]; exact tick_extends _ _

theorem NewFileFromBytes_extends (env : Env) (w : World) (b : Bytes) (name : Str) :
    w.trace <+: (NewFileFromBytes env w b name).1.trace := by
  unfold NewFileFromBytes
  split
  · exact List.prefix_refl _
  · exact tick_extends _ _

theorem parkSubmit_extends (env : Env) (w : World) (form : ParkForm) :
    w.trace <+: (form.Submit env w).1.trace := by
  unfold ParkForm.Submit
  split
  · exact ⟨_, rfl⟩
  · exact tick_extends _ _

theorem campSubmit_extends (env : Env) (w : World) (form : CampForm) :
    w.trace <+: (form.Submit env w).1.trace := by
  unfold CampForm.Submit
  split
  · exact ⟨_, rfl⟩
  · exact tick_extends _ _

theorem parkImageLoopBody_extends (env : Env) (cur : List Str) (s : World × ParkForm)
    (u : Str) : s.1.trace <+: (parkImageLoopBody env cur s u).1.trace := by
  unfold parkImageLoopBody
  split
  · exact List.prefix_refl _
  · have h1 := downloadAndResizeImage_world env s.1 u 1500
    have p1 : s.1.trace <+: (downloadAndResizeImage env s.1 u 1500).1.trace := by
      rw [h1]; exact tick_extends _ _
    split
    · rename_i w1 e heq
      rw [heq] at p1; exact p1
    · rename_i w1 bytes heq
      rw [heq] at p1
      have p2 := NewFileFromBytes_extends env w1 bytes (pathBase u)
      split
      · rename_i w2 e heq2
        rw [heq2] at p2; exact p1.trans p2
      · rename_i w2 f heq2
        rw [heq2] at p2
        exact (p1.trans p2).trans (parkSubmit_extends env w2 _)

theorem campImageLoopBody_extends (env : Env) (cur : List Str) (s : World × CampForm)
    (u : Str) : s.1.trace <+: (campImageLoopBody env cur s u).1.trace := by
  unfold campImageLoopBody
  split
  · exact List.prefix_refl _
  · have h1 := downloadAndResizeImage_world env s.1 u 1500
    have p1 : s.1.trace <+: (downloadAndResizeImage env s.1 u 1500).1.trace := by
      rw [h1]; exact tick_extends _ _
    split
    · rename_i w1 e heq
      rw [heq] at p1; exact p1
    · rename_i w1 bytes heq
      rw [heq] at p1
      have p2 := NewFileFromBytes_extends env w1 bytes (pathBase u)
      split
      · rename_i w2 e heq2
        rw [heq2] at p2; exact p1.trans p2
      · rename_i w2 f heq2
        rw [heq2] at p2
        exact (p1.trans p2).trans (campSubmit_extends env w2 _)

theorem foldl_extends {σ α : Type} (tr : σ → List Effect) (f : σ → α → σ)
    (hf : ∀ s a, tr s <+: tr (f s a)) (l : List α) (s : σ) :
    tr s <+: tr (l.foldl f s) := by
  induction l generalizing s with
  | nil => exact List.prefix_refl _
  | cons a rest ih => exact (hf s a).trans (ih (f s a))

theorem campLoopBody_extends (env : Env) (parkId : Str) (w : World) (c : CampEntry) :
    w.trace <+: (campLoopBody env parkId w c).trace := by
  unfold campLoopBody
  have p0 : w.trace <+: (findCampground env w c.Id).1.trace := tick_extends _ _
  have p1 := foldl_extends (fun s : World × CampForm => s.1.trace)
    (campImageLoopBody env ((findCampground env w c.Id).2.getD newCampRecord).images)
    (campImageLoopBody_extends env _) c.Images
    ((findCampground env w c.Id).1,
      campLoadData (NewCampRecordUpsert ((findCampground env w c.Id).2.getD newCampRecord)
        (findCampground env w c.Id).2.isNone) parkId c (Atoi c.Reservable).1
        (Atoi c.FirstComeFirstServe).1)
  have p01 := p0.trans p1
  simp only
  split
  · have p2 := getMapImage_extends env _ c.Latitude c.Longitude
      (decide (c.FirstComeFirstServe ≠ ['0'])) |> (p01.trans ·)
    split
    · rename_i w1 e heq
      rw [heq] at p2; exact p2
    · rename_i w1 bytes heq
      rw [heq] at p2
      have p3 := NewFileFromBytes_extends env w1 bytes "map.png".toList
      split
      · rename_i w2 e heq2
        rw [heq2] at p3; exact p2.trans p3
      · rename_i w2 f heq2
        rw [heq2] at p3
        exact (p2.trans p3).trans (campSubmit_extends env w2 _)
  · exact p01

theorem fetchCampgrounds_extends (env : Env) (w : World) (parkId parkCode : Str) :
    w.trace <+: (fetchCampgrounds env w parkId parkCode).1.trace := by
  unfold fetchCampgrounds
  have p0 : w.trace <+: (w.tick (.httpGet (campgroundsURL env parkCode))).trace :=
    tick_extends _ _
  simp only
  split
  · exact p0
  · split
    · exact p0
    · split
      · exact p0
      · have p1 : (w.tick (.httpGet (campgroundsURL env parkCode))).trace <+:
            (findCollection env (w.tick (.httpGet (campgroundsURL env parkCode)))
              "campgrounds".toList).1.trace := tick_extends _ _
        split
        · rename_i w2 heq
          rw [heq] at p1; exact p0.trans p1
        · rename_i w2 heq
          rw [heq] at p1
          exact (p0.trans p1).trans (foldl_extends (fun w : World => w.trace) _
            (campLoopBody_extends env parkId) _ _)

theorem parkLoopBody_accepted (env : Env) (w : World) (park : ParkEntry)
    (h : acceptedDesignation park = true) :
    (w.trace ++ [Effect.findPark park.ParkCode]) <+: (parkLoopBody env w park).trace := by
  unfold parkLoopBody
  rw [if_pos h]
  have p0 : (w.trace ++ [Effect.findPark park.ParkCode]) <+:
      (findPark env w park.ParkCode).1.trace := List.prefix_refl _
  simp only
  generalize hrec : (match (findPark env w park.ParkCode).2 with
    | some existingRecord => existingRecord
    | none => { newParkRecord with parkCode := park.ParkCode }) = record
  have p1 := foldl_extends (fun s : World × ParkForm => s.1.trace)
    (parkImageLoopBody env record.images) (parkImageLoopBody_extends env _) park.Images
    ((findPark env w park.ParkCode).1,
      parkLoadData (NewParkRecordUpsert record (findPark env w park.ParkCode).2.isNone) park)
  have p01 := p0.trans p1
  have p2 := fetchCampgrounds_extends env
    (List.foldl (parkImageLoopBody env record.images)
      ((findPark env w park.ParkCode).1,
        parkLoadData (NewParkRecordUpsert record (findPark env w park.ParkCode).2.isNone) park)
      park.Images).1
    (List.foldl (parkImageLoopBody env record.images)
      ((findPark env w park.ParkCode).1,
        parkLoadData (NewParkRecordUpsert record (findPark env w park.ParkCode).2.isNone) park)
      park.Images).2.record.Id park.ParkCode
  have p012 := p01.trans p2
  split
  · rename_i w1 c e heq
    rw [heq] at p012; exact p012
  · rename_i w1 c heq
    rw [heq] at p012
    exact p012.trans (parkSubmit_extends env w1 _)

theorem parkLoopBody_rejected (env : Env) (w : World) (park : ParkEntry)
    (h : acceptedDesignation park = false) : parkLoopBody env w park = w := by
  unfold parkLoopBody
  simp [h]

theorem acceptedDesignation_iff (park : ParkEntry) :
    acceptedDesignation park = true ↔
      (park.Designation = "National Park".toList ∨
        park.Designation = "National Park & Preserve".toList) := by
  simp [acceptedDesignation]

theorem foldl_filter_of_skip {σ α : Type} (f : σ → α → σ) (p : α → Bool)
    (hp : ∀ s a, p a = false → f s a = s) (l : List α) (s : σ) :
    l.foldl f s = (l.filter p).foldl f s := by
  induction l generalizing s with
  | nil => rfl
  | cons a rest ih =>
    cases h : p a with
    | false =>
      rw [List.filter_cons_of_neg (by simp [h]), List.foldl_cons, hp s a h]
      exact ih s
    | true =>
      rw [List.filter_cons_of_pos h, List.foldl_cons, List.foldl_cons]
      exact ih _

/-! ## Lemmas on the campground loop -/

theorem foldl_id_of_forall {σ α : Type} (f : σ → α → σ) (l : List α) (s : σ)
    (h : ∀ a ∈ l, ∀ s, f s a = s) : l.foldl f s = s := by
  induction l generalizing s with
  | nil => rfl
  | cons a rest ih =>
    rw [List.foldl_cons, h a (List.mem_cons_self _ _)]
    exact ih s fun b hb => h b (List.mem_cons_of_mem _ hb)

theorem campLoopBody_no_submit (env : Env) (parkId : Str) (w : World) (c : CampEntry)
    (r : CampRecord) (hok : env.dbOk w.clock = true)
    (hfind : w.store.campgrounds.find? (fun x => x.campId = c.Id) = some r)
    (hdup : ∀ u ∈ c.Images, isDuplicate u r.images = true) (hmap : r.mapImage ≠ []) :
    campLoopBody env parkId w c = w.tick (.findCampground c.Id) := by
  have hf : findCampground env w c.Id = (w.tick (.findCampground c.Id), some r) := by
    simp [findCampground, hok, hfind]
  unfold campLoopBody
  simp only [hf, Option.getD_some]
  rw [foldl_id_of_forall _ _ _ fun u hu s => by simp [campImageLoopBody, hdup u hu]]
  simp [campLoadData, NewCampRecordUpsert, hmap]

/-! ## Lemmas on `strconv.Atoi` -/

theorem isDigit_bounds (c : Char) (h : isDigit c = true) : 48 ≤ c.toNat ∧ c.toNat ≤ 57 := by
  simp only [isDigit, Bool.and_eq_true, decide_eq_true_eq] at h
  obtain ⟨h1, h2⟩ := h
  have h1' : ('0' : Char).val ≤ c.val := h1
  have h2' : c.val ≤ ('9' : Char).val := h2
  rw [UInt32.le_def] at h1' h2'
  exact ⟨h1', h2'⟩

theorem digitVal_le (c : Char) (h : isDigit c = true) : digitVal c ≤ 9 := by
  have := isDigit_bounds c h
  unfold digitVal; omega

theorem digitsValueFrom_cons (n : Nat) (c : Char) (ds : Str) :
    digitsValueFrom n (c :: ds) = digitsValueFrom (n * 10 + digitVal c) ds := rfl

theorem le_digitsValueFrom (ds : Str) (n : Nat) : n ≤ digitsValueFrom n ds := by
  induction ds generalizing n with
  | nil => exact le_refl _
  | cons c rest ih =>
    rw [digitsValueFrom_cons]
    exact le_trans (by omega) (ih _)

theorem parseUintLoop_eq (s : Str) (n : Nat) (hn : n < 2 ^ 64) :
    parseUintLoop n s =
      if 2 ^ 64 ≤ digitsValueFrom n (s.takeWhile isDigit) then (2 ^ 64 - 1, some .range)
      else if s.dropWhile isDigit = [] then (digitsValueFrom n (s.takeWhile isDigit), none)
      else (0, some .malformed) := by
  induction s generalizing n with
  | nil =>
    simp only [parseUintLoop, List.takeWhile_nil, List.dropWhile_nil, digitsValueFrom,
      List.foldl_nil]
    rw [if_neg (by omega)]
    simp
  | cons c rest ih =>
    unfold parseUintLoop
    by_cases hc : isDigit c = true
    · have hd := digitVal_le c hc
      have hdv : c.toNat - 48 = digitVal c := rfl
      simp only [hc, if_true, List.takeWhile_cons_of_pos, List.dropWhile_cons_of_pos,
        digitsValueFrom_cons, hdv]
      by_cases hcut : n ≥ (2 ^ 64 - 1) / 10 + 1
      · rw [if_pos hcut]
        have : 2 ^ 64 ≤ digitsValueFrom (n * 10 + digitVal c) (List.takeWhile isDigit rest) :=
          le_trans (by omega) (le_digitsValueFrom _ _)
        rw [if_pos this]
      · rw [if_neg hcut]
        have h10 : n * 10 % 2 ^ 64 = n * 10 := Nat.mod_eq_of_lt (by omega)
        simp only [h10]
        by_cases hov : 2 ^ 64 ≤ n * 10 + digitVal c
        · have hmod : (n * 10 + digitVal c) % 2 ^ 64 = n * 10 + digitVal c - 2 ^ 64 := by
            rw [Nat.mod_eq_sub_mod hov]
            exact Nat.mod_eq_of_lt (by omega)
          rw [if_pos (Or.inl (by rw [hmod]; omega))]
          have : 2 ^ 64 ≤ digitsValueFrom (n * 10 + digitVal c) (List.takeWhile isDigit rest) :=
            le_trans hov (le_digitsValueFrom _ _)
          rw [if_pos this]
        · have hlt : n * 10 + digitVal c < 2 ^ 64 := by omega
          have hmod : (n * 10 + digitVal c) % 2 ^ 64 = n * 10 + digitVal c :=
            Nat.mod_eq_of_lt hlt
          rw [hmod, if_neg (by omega)]
          exact ih _ hlt
    · have hc' : isDigit c = false := by simpa using hc
      simp only [hc', Bool.false_eq_true, if_false, List.takeWhile_cons_of_neg hc,
        List.dropWhile_cons_of_neg hc, digitsValueFrom, List.foldl_nil]
      rw [if_neg (by omega)]
      simp


theorem wrapInt_of_range (x : Int) (h1 : -(2 ^ 63) ≤ x) (h2 : x < 2 ^ 63) : wrapInt x = x := by
  unfold wrapInt; omega

theorem wrapInt_two_pow : wrapInt (2 ^ 63) = -(2 ^ 63) := by
  unfold wrapInt; omega

theorem all_takeWhile (s : Str) (h : s.all isDigit = true) : s.takeWhile isDigit = s := by
  rw [List.takeWhile_eq_self_iff]
  intro x hx
  exact (List.all_eq_true.1 h) x hx

theorem all_dropWhile (s : Str) (h : s.all isDigit = true) : s.dropWhile isDigit = [] := by
  rw [List.dropWhile_eq_nil_iff]
  intro x hx
  exact (List.all_eq_true.1 h) x hx

theorem not_all_dropWhile (s : Str) (h : s.all isDigit = false) : s.dropWhile isDigit ≠ [] := by
  intro hd
  rw [List.dropWhile_eq_nil_iff] at hd
  have : s.all isDigit = true := List.all_eq_true.2 hd
  rw [h] at this; cases this

theorem digitsValueFrom_lt (s : Str) (n : Nat) (h : s.all isDigit = true) :
    digitsValueFrom n s < (n + 1) * 10 ^ s.length := by
  induction s generalizing n with
  | nil => simp [digitsValueFrom]
  | cons c rest ih =>
    simp only [List.all_cons, Bool.and_eq_true] at h
    have hd := digitVal_le c h.1
    rw [digitsValueFrom_cons]
    have := ih (n * 10 + digitVal c) h.2
    have hle : (n * 10 + digitVal c + 1) * 10 ^ rest.length ≤ (n + 1) * 10 * 10 ^ rest.length :=
      Nat.mul_le_mul_right _ (by omega)
    rw [List.length_cons, pow_succ]
    calc digitsValueFrom (n * 10 + digitVal c) rest
        < (n * 10 + digitVal c + 1) * 10 ^ rest.length := this
      _ ≤ (n + 1) * 10 * 10 ^ rest.length := hle
      _ = (n + 1) * (10 ^ rest.length * 10) := by ring

theorem takeWhile_value_lt (s : Str) :
    digitsValue (s.takeWhile isDigit) < 10 ^ s.length := by
  have hall : (s.takeWhile isDigit).all isDigit = true := by
    rw [List.all_eq_true]
    intro x hx
    exact List.mem_takeWhile_imp hx
  have h := digitsValueFrom_lt (s.takeWhile isDigit) 0 hall
  have hlen : (s.takeWhile isDigit).length ≤ s.length := (List.takeWhile_sublist isDigit).length_le
  have : 10 ^ (s.takeWhile isDigit).length ≤ 10 ^ s.length :=
    Nat.pow_le_pow_right (by decide) hlen
  unfold digitsValue
  omega

theorem ParseUint_decimal (u : Str) (hne : u ≠ []) (hall : u.all isDigit = true) :
    ParseUint u =
      if 2 ^ 64 ≤ digitsValue u then (2 ^ 64 - 1, some .range) else (digitsValue u, none) := by
  unfold ParseUint
  rw [if_neg hne, parseUintLoop_eq u 0 (by decide), all_takeWhile u hall, all_dropWhile u hall]
  rfl

theorem ParseUint_malformed (u : Str) (hnd : u = [] ∨ u.all isDigit = false)
    (hv : digitsValue (u.takeWhile isDigit) < 2 ^ 64) : ParseUint u = (0, some .malformed) := by
  unfold ParseUint
  by_cases hne : u = []
  · rw [if_pos hne]
  · rw [if_neg hne, parseUintLoop_eq u 0 (by decide)]
    have hall : u.all isDigit = false := hnd.resolve_left hne
    rw [if_neg (by unfold digitsValue at hv; omega), if_neg (not_all_dropWhile u hall)]

theorem length_le_byteLen (s : Str) : s.length ≤ byteLen s := by
  induction s with
  | nil => simp [byteLen]
  | cons c rest ih =>
    have := Char.utf8Size_pos c
    simp only [byteLen, List.map_cons, List.sum_cons, List.length_cons] at ih ⊢
    omega

theorem atoiFastLoop_eq (s : Str) (n : Nat) (h : (n + 1) * 10 ^ s.length ≤ 2 ^ 63) :
    atoiFastLoop (n : Int) s =
      if s.all isDigit = true then (((digitsValueFrom n s : Nat) : Int), none)
      else (0, some .malformed) := by
  induction s generalizing n with
  | nil => simp [atoiFastLoop, digitsValueFrom]
  | cons c rest ih =>
    unfold atoiFastLoop
    by_cases hc : isDigit c = true
    · have hb := isDigit_bounds c hc
      have hd := digitVal_le c hc
      rw [List.length_cons, pow_succ] at h
      have hpos : 0 < 10 ^ rest.length := Nat.pow_pos (by decide)
      have hstep : (n * 10 + digitVal c + 1) * 10 ^ rest.length ≤ 2 ^ 63 :=
        le_trans (Nat.mul_le_mul_right _ (by omega : n * 10 + digitVal c + 1 ≤ (n + 1) * 10))
          (by rw [Nat.mul_assoc, Nat.mul_comm 10]; exact h)
      have hsmall : n * 10 + digitVal c < 2 ^ 63 := by
        have : (n * 10 + digitVal c + 1) * 1 ≤ (n * 10 + digitVal c + 1) * 10 ^ rest.length :=
          Nat.mul_le_mul_left _ hpos
        omega
      have hcast : ((n : Int) * 10 + ((c.toNat : Int) - 48)) = ((n * 10 + digitVal c : Nat) : Int) := by
        unfold digitVal
        omega
      rw [if_pos hc, hcast, wrapInt_of_range _ (by omega) (by exact_mod_cast hsmall), ih _ hstep]
      simp [hc, digitsValueFrom_cons]
    · have hc' : isDigit c = false := by simpa using hc
      simp [hc']


theorem ParseInt_of_malformed (s : Str) (hu : ParseUint (unsignedPart s) = (0, some .malformed)) :
    ParseInt s = (0, some .malformed) := by
  unfold ParseInt
  by_cases hne : s = []
  · rw [if_pos hne]
  · rw [if_neg hne]
    unfold unsignedPart at hu
    simp only [hu, if_true]

theorem ParseInt_of_range (s : Str) (hne : s ≠ [])
    (hu : ParseUint (unsignedPart s) = (2 ^ 64 - 1, some .range)) :
    ParseInt s =
      if s.head? = some '-' then (-(2 ^ 63), some .range) else (2 ^ 63 - 1, some .range) := by
  unfold ParseInt
  rw [if_neg hne]
  unfold unsignedPart at hu
  simp only [hu]
  by_cases hneg : s.head? = some '-'
  · simp [hneg]
  · simp [hneg]

theorem ParseInt_of_ok (s : Str) (hne : s ≠ []) (V : Nat)
    (hu : ParseUint (unsignedPart s) = (V, none)) :
    ParseInt s =
      if s.head? = some '-' then
        (if V > 2 ^ 63 then (-(2 ^ 63), some .range) else (-(V : Int), none))
      else (if V ≥ 2 ^ 63 then (2 ^ 63 - 1, some .range) else ((V : Int), none)) := by
  unfold ParseInt
  rw [if_neg hne]
  unfold unsignedPart at hu
  simp only [hu]
  rw [if_neg (by simp : ¬ ((none : Option Err) = some Err.malformed))]
  by_cases hneg : s.head? = some '-'
  · simp only [hneg, decide_True, Bool.not_true, Bool.false_eq_true, false_and, if_false,
      true_and, if_true]
    by_cases hV : V > 2 ^ 63
    · rw [if_pos hV, if_pos hV]
      norm_num
    · rw [if_neg hV, if_neg hV]
      rcases Nat.lt_or_eq_of_le (Nat.le_of_not_gt hV) with hlt | heq
      · rw [wrapInt_of_range (V : Int) (by omega) (by exact_mod_cast hlt),
          wrapInt_of_range (-(V : Int)) (by omega) (by omega)]
      · subst heq
        have : (((2 ^ 63 : Nat) : Int)) = 2 ^ 63 := by norm_num
        rw [this, wrapInt_two_pow]
        simp only [neg_neg, wrapInt_two_pow]
  · simp only [hneg, decide_False, Bool.not_false, true_and, false_and, if_false]
    by_cases hV : V ≥ 2 ^ 63
    · rw [if_pos hV, if_pos hV]
      norm_num
    · rw [if_neg hV, if_neg hV]
      rw [wrapInt_of_range (V : Int) (by omega) (by exact_mod_cast (Nat.lt_of_not_ge hV))]
      simp

theorem unsignedPart_comm (s : Str) :
    (if s.head? = some '-' ∨ s.head? = some '+' then s.drop 1 else s) = unsignedPart s := by
  unfold unsignedPart
  by_cases h1 : s.head? = some '-' <;> by_cases h2 : s.head? = some '+' <;> simp [h1, h2]

theorem unsignedPart_length_le (s : Str) : (unsignedPart s).length ≤ s.length := by
  unfold unsignedPart
  split
  · simp
  · exact le_refl _

theorem Atoi_eq_ParseInt (s : Str) : Atoi s = ParseInt s := by
  unfold Atoi
  simp only [unsignedPart_comm]
  split
  · rename_i hlen
    have hsl : s.length < 19 := lt_of_le_of_lt (length_le_byteLen s) hlen.2
    have hne : s ≠ [] := by
      intro h; subst h; simp [byteLen] at hlen
    have hul : (unsignedPart s).length ≤ 18 := by
      have := unsignedPart_length_le s; omega
    have hpow : 10 ^ (unsignedPart s).length ≤ 10 ^ 18 := Nat.pow_le_pow_right (by decide) hul
    split
    · rename_i h1
      have hnil : unsignedPart s = [] := List.length_eq_zero.1 (by omega)
      exact (ParseInt_of_malformed s (by rw [hnil]; rfl)).symm
    · rename_i h1
      have hune : unsignedPart s ≠ [] := by
        intro h; rw [h] at h1; simp at h1
      have hfast := atoiFastLoop_eq (unsignedPart s) 0
        (by simp only [zero_add, one_mul]; exact le_trans hpow (by norm_num))
      have hfast' : atoiFastLoop 0 (unsignedPart s) =
          if (unsignedPart s).all isDigit = true
          then (((digitsValue (unsignedPart s) : Nat) : Int), none)
          else (0, some .malformed) := by
        simpa [digitsValue] using hfast
      rw [hfast']
      cases hall : (unsignedPart s).all isDigit with
      | false =>
        have hv := takeWhile_value_lt (unsignedPart s)
        have hu := ParseUint_malformed (unsignedPart s) (Or.inr hall)
          (lt_of_lt_of_le hv (le_trans hpow (by norm_num)))
        rw [ParseInt_of_malformed s hu]
        simp
      | true =>
        have hv := digitsValueFrom_lt (unsignedPart s) 0 hall
        have hV : digitsValue (unsignedPart s) < 10 ^ 18 := by
          unfold digitsValue; omega
        have hV63 : digitsValue (unsignedPart s) < 2 ^ 63 := lt_of_lt_of_le hV (by norm_num)
        have hu := ParseUint_decimal (unsignedPart s) hune hall
        rw [if_neg (by omega)] at hu
        rw [ParseInt_of_ok s hne _ hu]
        simp only [if_true, ne_eq, not_true_eq_false, if_false]
        by_cases hneg : s.head? = some '-'
        · rw [if_pos hneg, if_pos hneg, if_neg (by omega),
            wrapInt_of_range _ (by omega) (by omega)]
        · rw [if_neg hneg, if_neg hneg, if_neg (by omega)]
  · rfl


theorem isDecimal_parts (s : Str) (h : isDecimal s = true) :
    s ≠ [] ∧ unsignedPart s ≠ [] ∧ (unsignedPart s).all isDigit = true := by
  simp only [isDecimal, Bool.and_eq_true, Bool.not_eq_true', List.isEmpty_eq_false] at h
  refine ⟨?_, h.1, h.2⟩
  intro hs
  subst hs
  exact h.1 rfl

theorem Atoi_decimal (s : Str) (h : isDecimal s = true) :
    Atoi s =
      if 2 ^ 63 - 1 < decimalInt s then (2 ^ 63 - 1, some .range)
      else if decimalInt s < -(2 ^ 63) then (-(2 ^ 63), some .range)
      else (decimalInt s, none) := by
  obtain ⟨hne, hune, hall⟩ := isDecimal_parts s h
  rw [Atoi_eq_ParseInt]
  have hu := ParseUint_decimal (unsignedPart s) hune hall
  unfold decimalInt
  by_cases hbig : 2 ^ 64 ≤ digitsValue (unsignedPart s)
  · rw [if_pos hbig] at hu
    rw [ParseInt_of_range s hne hu]
    by_cases hneg : s.head? = some '-'
    · simp only [if_pos hneg]
      split_ifs <;> first | rfl | (exfalso; omega)
    · simp only [if_neg hneg]
      split_ifs <;> first | rfl | (exfalso; omega)
  · rw [if_neg hbig] at hu
    rw [ParseInt_of_ok s hne _ hu]
    by_cases hneg : s.head? = some '-'
    · simp only [if_pos hneg]
      split_ifs <;> first | rfl | (exfalso; omega)
    · simp only [if_neg hneg]
      split_ifs <;> first | rfl | (exfalso; omega)

theorem Atoi_not_decimal (s : Str) (h : isDecimal s = false)
    (hv : digitsValue ((unsignedPart s).takeWhile isDigit) < 2 ^ 64) :
    Atoi s = (0, some .malformed) := by
  rw [Atoi_eq_ParseInt]
  apply ParseInt_of_malformed
  apply ParseUint_malformed _ _ hv
  by_cases hu : unsignedPart s = []
  · exact Or.inl hu
  · right
    simp only [isDecimal, Bool.and_eq_false_iff, Bool.not_eq_false', List.isEmpty_iff] at h
    exact h.resolve_left hu

theorem Atoi_overflow (s : Str)
    (hv : 2 ^ 64 ≤ digitsValue ((unsignedPart s).takeWhile isDigit)) :
    Atoi s = if s.head? = some '-' then (-(2 ^ 63), some .range)
      else (2 ^ 63 - 1, some .range) := by
  have hune : unsignedPart s ≠ [] := by
    intro hu
    rw [hu] at hv
    simp [digitsValue, digitsValueFrom] at hv
  have hne : s ≠ [] := by
    intro hs
    subst hs
    exact hune rfl
  rw [Atoi_eq_ParseInt]
  apply ParseInt_of_range s hne
  unfold ParseUint
  unfold digitsValue at hv
  rw [if_neg hune, parseUintLoop_eq _ 0 (by decide), if_pos hv]

/-! ## Lemmas on the resize arithmetic -/

theorem resizeRaster_wide (img : Image) (m : Int) (hh : 0 ≤ img.dy) (hm : 1 ≤ m)
    (hbuf : img.dx * img.dy < 2 ^ 63) (hwide : img.dx > m) :
    resizeRaster img m =
      { width := m, height := img.dy * m / img.dx, source := img, scaled := true } := by
  have hprod : img.dy * m ≤ img.dx * img.dy := by
    rw [mul_comm img.dx]
    exact mul_le_mul_of_nonneg_left (le_of_lt hwide) hh
  have hnn : 0 ≤ img.dy * m := mul_nonneg hh (by omega)
  have hwrap : wrapInt (img.dy * m) = img.dy * m :=
    wrapInt_of_range _ (by omega) (by omega)
  have hdiv : Int.tdiv (img.dy * m) img.dx = img.dy * m / img.dx :=
    Int.tdiv_eq_ediv hnn (by omega)
  have hq : 0 ≤ img.dy * m / img.dx := Int.ediv_nonneg hnn (by omega)
  unfold resizeRaster rectSize
  rw [if_pos hwide, hwrap, hdiv]
  simp only
  rw [if_neg (by omega), if_neg (by omega)]

theorem resizeRaster_narrow (img : Image) (m : Int) (hw : 1 ≤ img.dx) (hh : 0 ≤ img.dy)
    (hnarrow : img.dx ≤ m) :
    resizeRaster img m =
      { width := img.dx, height := img.dy, source := img, scaled := false } := by
  unfold resizeRaster rectSize
  rw [if_neg (by omega)]
  simp only
  rw [if_neg (by omega), if_neg (by omega)]

theorem floor_div_bounds (a w : Int) (hw : 0 < w) :
    ((a / w : Int) : ℚ) ≤ (a : ℚ) / (w : ℚ) ∧ (a : ℚ) / (w : ℚ) < ((a / w : Int) : ℚ) + 1 := by
  have hwq : (0 : ℚ) < (w : ℚ) := by exact_mod_cast hw
  have h1 : a / w * w ≤ a := Int.ediv_mul_le a (by omega)
  have h2 : a < (a / w + 1) * w := Int.lt_ediv_add_one_mul_self a hw
  constructor
  · rw [le_div_iff₀ hwq]
    exact_mod_cast h1
  · rw [div_lt_iff₀ hwq]
    exact_mod_cast h2

/-! ## Lemmas on the alert refresh -/

theorem deleteAlertsLoop_ok (env : Env) (l : List AlertRecord) (w w' : World)
    (h : deleteAlertsLoop env w l = (w', none)) :
    (∀ r ∈ w'.store.alerts, r ∈ w.store.alerts ∧ ∀ a ∈ l, r.Id ≠ a.Id) ∧
    w'.store.parks = w.store.parks := by
  induction l generalizing w with
  | nil =>
    simp only [deleteAlertsLoop, Prod.mk.injEq, and_true] at h
    subst h
    exact ⟨fun r hr => ⟨hr, fun a ha => by cases ha⟩, rfl⟩
  | cons a rest ih =>
    unfold deleteAlertsLoop at h
    unfold deleteAlert at h
    by_cases hok : env.dbOk w.clock = true
    · simp only [hok, if_true] at h
      obtain ⟨h1, h2⟩ := ih _ h
      refine ⟨fun r hr => ?_, h2⟩
      obtain ⟨hmem, hrest⟩ := h1 r hr
      simp only [List.mem_filter, decide_eq_true_eq] at hmem
      refine ⟨hmem.1, fun b hb => ?_⟩
      rcases List.mem_cons.1 hb with hba | hbr
      · subst hba; exact hmem.2
      · exact hrest b hbr
    · simp [hok] at h

theorem Grows.same (env : Env) (w : World) : Grows env [] w w :=
  ⟨[], by simp, by simp, fun _ => rfl, rfl⟩

theorem Grows.tick (env : Env) (w : World) (e : Effect) : Grows env [] w (w.tick e) :=
  ⟨[], by simp [World.tick], by simp, fun _ => rfl, rfl⟩

theorem Grows.trans {env : Env} {e1 e2 : List (Alert × Str)} {w1 w2 w3 : World}
    (h1 : Grows env e1 w1 w2) (h2 : Grows env e2 w2 w3) : Grows env (e1 ++ e2) w1 w3 := by
  obtain ⟨n1, a1, s1, q1, p1⟩ := h1
  obtain ⟨n2, a2, s2, q2, p2⟩ := h2
  refine ⟨n1 ++ n2, by rw [a2, a1, List.append_assoc], ?_, fun hall => ?_, by rw [p2, p1]⟩
  · rw [List.map_append]; exact s1.append s2
  · rw [List.map_append, q1 hall, q2 hall]

theorem alertLoopBody_grows (env : Env) (parkId : Str) (w : World) (alert : Alert) :
    Grows env [(alert, parkId)] w (alertLoopBody env parkId w alert) := by
  unfold alertLoopBody
  by_cases hok : env.submitOk w.clock = true
  · simp only [hok, if_true]
    exact ⟨[_], rfl, by simp [AlertRecord.content], fun _ => by simp [AlertRecord.content], rfl⟩
  · simp only [hok, if_false]
    refine ⟨[], by simp [World.tick], by simp, fun hall => ?_, rfl⟩
    exact absurd (hall w.clock) hok

theorem alertLoop_grows (env : Env) (parkId : Str) (alerts : List Alert) (w : World) :
    Grows env (alerts.map fun a => (a, parkId)) w
      (alerts.foldl (alertLoopBody env parkId) w) := by
  induction alerts generalizing w with
  | nil => exact Grows.same env w
  | cons a rest ih =>
    have h := (alertLoopBody_grows env parkId w a).trans (ih (alertLoopBody env parkId w a))
    simpa using h

theorem alertParkLoopBody_grows (env : Env) (fetch : Str → Option Response)
    (hfetch : ∀ t code, env.httpGet t (alertsURL env code) = fetch code)
    (w : World) (park : ParkRecord) :
    Grows env ((alertsOfAnswer (fetch park.parkCode)).map fun a => (a, park.Id)) w
      (alertParkLoopBody env w park) := by
  unfold alertParkLoopBody FetchParkAlerts
  simp only [hfetch]
  cases hf : fetch park.parkCode with
  | none => simpa [alertsOfAnswer] using Grows.tick env w _
  | some r =>
    by_cases hst : r.StatusCode = StatusOK
    · cases hb : r.body.alerts with
      | none => simpa [alertsOfAnswer, hst, hb] using Grows.tick env w _
      | some data =>
        simp only [alertsOfAnswer, hst, hb, ne_eq, not_true_eq_false, if_false, if_true,
          Option.getD_some]
        have hmap : List.map (fun alert : Alert =>
            ({ Title := alert.Title, Description := alert.Description,
               Category := alert.Category, Url := alert.Url } : Alert)) data = data :=
          List.map_id'' (fun _ => rfl) data
        rw [hmap]
        have h := (Grows.tick env w (.httpGet (alertsURL env park.parkCode))).trans
          (alertLoop_grows env park.Id data (w.tick (.httpGet (alertsURL env park.parkCode))))
        simpa using h
    · simpa [alertsOfAnswer, hst] using Grows.tick env w _

theorem alertParkLoop_grows (env : Env) (fetch : Str → Option Response)
    (hfetch : ∀ t code, env.httpGet t (alertsURL env code) = fetch code)
    (parks : List ParkRecord) (w : World) :
    Grows env (expectedAlerts fetch parks) w (parks.foldl (alertParkLoopBody env) w) := by
  induction parks generalizing w with
  | nil => exact Grows.same env w
  | cons p rest ih =>
    have h := (alertParkLoopBody_grows env fetch hfetch w p).trans
      (ih (alertParkLoopBody env w p))
    simpa [expectedAlerts] using h

theorem FetchAlerts_ok (env : Env) (w w' : World) (hrun : FetchAlerts env w = (w', none)) :
    ∃ w0, w0.store.alerts = [] ∧ w0.store.parks = w.store.parks ∧
      w' = w.store.parks.foldl (alertParkLoopBody env) w0 := by
  unfold FetchAlerts at hrun
  simp only [findCollection, findAllAlerts, findAllParks] at hrun
  split at hrun
  · cases hrun
  · rename_i w1 hc
    split at hrun
    · cases hrun
    · rename_i w2 alerts ha
      split at hrun
      · cases hrun
      · rename_i w3 hd
        split at hrun
        · cases hrun
        · rename_i w4 parks hp
          simp only [Prod.mk.injEq] at hc ha hp hrun
          obtain ⟨hc1, -⟩ := hc
          obtain ⟨ha1, ha2⟩ := ha
          obtain ⟨hp1, hp2⟩ := hp
          obtain ⟨hdel, hparks⟩ := deleteAlertsLoop_ok env alerts w2 w3 hd
          have hw1 : w1.store = w.store := by rw [← hc1]; rfl
          have hw2 : w2.store = w.store := by rw [← ha1, ← hw1]; rfl
          have halerts : alerts = w.store.alerts := by
            split at ha2
            · rw [← hw1]; exact (Option.some.inj ha2).symm
            · cases ha2
          have hparks4 : parks = w.store.parks := by
            split at hp2
            · rw [← Option.some.inj hp2, hparks, hw2]
            · cases hp2
          have hempty : w3.store.alerts = [] := by
            apply List.eq_nil_iff_forall_not_mem.2
            intro r hr
            obtain ⟨hmem, hne⟩ := hdel r hr
            rw [hw2, ← halerts] at hmem
            exact hne r hmem rfl
          refine ⟨w4, ?_, ?_, ?_⟩
          · rw [← hp1]; exact hempty
          · rw [← hp1]; show w3.store.parks = _; rw [hparks, hw2]
          · rw [← hrun.1, hparks4]

/-! ## Lemmas on the weather loop -/

theorem weatherLoop_ok (ops : FloatOps) (wenv : WeatherEnv) (daily : List Daily) (i : Nat)
    (acc : List WeatherDate) (h : ∀ d ∈ daily, d.Weather ≠ []) :
    weatherLoop ops wenv i acc daily = .ok (acc ++ expectedWeather ops wenv i daily) := by
  induction daily generalizing i acc with
  | nil => simp [weatherLoop, expectedWeather]
  | cons d rest ih =>
    have hd : d.Weather ≠ [] := h d (List.mem_cons_self _ _)
    obtain ⟨icon, more, hw⟩ := List.exists_cons_of_ne_nil hd
    unfold weatherLoop
    simp only [hw, List.getElem?_cons_zero]
    rw [ih _ _ fun x hx => h x (List.mem_cons_of_mem _ hx)]
    simp [expectedWeather, hw]

theorem weatherLoop_panics (ops : FloatOps) (wenv : WeatherEnv) (daily : List Daily) (i : Nat)
    (acc : List WeatherDate) (h : ∃ d ∈ daily, d.Weather = []) :
    weatherLoop ops wenv i acc daily = .panics := by
  induction daily generalizing i acc with
  | nil => obtain ⟨d, hd, _⟩ := h; cases hd
  | cons d rest ih =>
    unfold weatherLoop
    cases hw : d.Weather with
    | nil => simp
    | cons icon more =>
      simp only [List.getElem?_cons_zero]
      apply ih
      obtain ⟨x, hx, hxw⟩ := h
      rcases List.mem_cons.1 hx with hxd | hxr
      · subst hxd; rw [hw] at hxw; cases hxw
      · exact ⟨x, hxr, hxw⟩

theorem expectedWeather_length (ops : FloatOps) (wenv : WeatherEnv) (daily : List Daily)
    (i : Nat) : (expectedWeather ops wenv i daily).length = daily.length := by
  induction daily generalizing i with
  | nil => rfl
  | cons d rest ih => simp [expectedWeather, ih]

theorem expectedWeather_getElem? (ops : FloatOps) (wenv : WeatherEnv) (daily : List Daily)
    (i j : Nat) :
    (expectedWeather ops wenv i daily)[j]? =
      daily[j]?.map fun d => weatherDateOf ops wenv (i + j) d (d.Weather.headD []) := by
  induction daily generalizing i j with
  | nil => simp [expectedWeather]
  | cons d rest ih =>
    cases j with
    | zero => simp [expectedWeather]
    | succ j =>
      simp only [expectedWeather, List.getElem?_cons_succ]
      rw [ih]
      have : i + 1 + j = i + (j + 1) := by omega
      rw [this]

/-! ## Lemmas on the run flag -/

theorem Sys.Good.flag_of_free {T : Type} {s : Sys T} (hg : s.Good) (hmu : s.mu = none) :
    s.isRunning = false := by
  cases hr : s.isRunning with
  | false => rfl
  | true =>
    obtain ⟨t, ht, _⟩ := hg.flag hr
    rw [hmu] at ht; cases ht

theorem Sys.Good.flag_at {T : Type} {s : Sys T} (hg : s.Good) (t : T)
    (hh : (s.pc t).holdsMu = true) (hb : s.pc t ≠ .atBody) (hr : ∀ e, s.pc t ≠ .atReset e) :
    s.isRunning = false := by
  cases hrun : s.isRunning with
  | false => rfl
  | true =>
    obtain ⟨u, hu, hpu⟩ := hg.flag hrun
    have hmu := hg.holder t hh
    rw [hmu] at hu
    cases hu
    rcases hpu with hpu | ⟨e, hpu⟩
    · exact absurd hpu hb
    · exact absurd hpu (hr e)

theorem syncParks_exits (env : Env) (w : World) :
    (syncParks env w).2 = none ∨ (syncParks env w).2 = some .network ∨
      (syncParks env w).2 = some .decode ∨ (syncParks env w).2 = some .notFound := by
  unfold syncParks
  simp only
  split
  · exact Or.inr (Or.inl rfl)
  · split
    · exact Or.inr (Or.inr (Or.inl rfl))
    · split
      · exact Or.inr (Or.inr (Or.inr rfl))
      · exact Or.inl rfl

/-! ## Lemmas on the one-decimal rendering -/

theorem pow2_pos (k : Nat) : 0 < pow2 k := by
  unfold pow2
  rw [Nat.one_shiftLeft]
  exact Nat.pow_pos (by decide)

theorem decodeF64_den_pos (x : Float64) (neg : Bool) (num den : Nat)
    (h : decodeF64 x = .finite neg num den) : 0 < den := by
  unfold decodeF64 at h
  simp only at h
  split at h
  · split at h <;> cases h
  · split at h
    · cases h; exact pow2_pos _
    · split at h
      · cases h; exact Nat.one_pos
      · cases h; exact pow2_pos _

theorem nearestTenths_spec (num den : Nat) (hden : 0 < den) :
    |((nearestTenths num den : Nat) : ℚ) - 10 * ((num : ℚ) / (den : ℚ))| ≤ 1 / 2 := by
  have hd : (0 : ℚ) < (den : ℚ) := by exact_mod_cast hden
  have hdiv : den * (10 * num / den) + 10 * num % den = 10 * num := Nat.div_add_mod _ _
  have hr : 10 * num % den < den := Nat.mod_lt _ hden
  have hx : 10 * ((num : ℚ) / (den : ℚ))
      = ((10 * num / den : Nat) : ℚ) + ((10 * num % den : Nat) : ℚ) / (den : ℚ) := by
    have hq : ((10 * num : Nat) : ℚ)
        = (den : ℚ) * ((10 * num / den : Nat) : ℚ) + ((10 * num % den : Nat) : ℚ) := by
      exact_mod_cast hdiv.symm
    push_cast at hq
    field_simp
    linarith
  have hrq : (0 : ℚ) ≤ ((10 * num % den : Nat) : ℚ) / (den : ℚ) :=
    div_nonneg (by exact_mod_cast Nat.zero_le _) (le_of_lt hd)
  rw [hx, abs_le]
  unfold nearestTenths
  simp only
  split
  · rename_i hup
    have h2 : den ≤ 2 * (10 * num % den) := by
      rcases hup with h | ⟨h, _⟩ <;> omega
    have h2q : (den : ℚ) ≤ 2 * ((10 * num % den : Nat) : ℚ) := by exact_mod_cast h2
    have hrlt : ((10 * num % den : Nat) : ℚ) / (den : ℚ) < 1 := by
      rw [div_lt_one hd]; exact_mod_cast hr
    have hhalf : (1 : ℚ) / 2 ≤ ((10 * num % den : Nat) : ℚ) / (den : ℚ) := by
      rw [le_div_iff₀ hd]; linarith
    push_cast
    constructor <;> linarith
  · rename_i hdown
    have h2 : 2 * (10 * num % den) ≤ den := by
      by_contra hc
      exact hdown (Or.inl (by omega))
    have h2q : 2 * ((10 * num % den : Nat) : ℚ) ≤ (den : ℚ) := by exact_mod_cast h2
    have hhalf : ((10 * num % den : Nat) : ℚ) / (den : ℚ) ≤ 1 / 2 := by
      rw [div_le_iff₀ hd]; linarith
    constructor <;> linarith

theorem digitChar_isDigit (n : Nat) : isDigit (Nat.digitChar (n % 10)) = true := by
  have h : n % 10 < 10 := Nat.mod_lt _ (by decide)
  interval_cases (n % 10) <;> decide

theorem f64sprintf1_finite (x : Float64) (neg : Bool) (num den : Nat)
    (h : decodeF64 x = .finite neg num den) :
    f64sprintf1 x = (if neg then ['-'] else []) ++ Nat.toDigits 10 (nearestTenths num den / 10)
      ++ ['.', Nat.digitChar (nearestTenths num den % 10)] := by
  unfold f64sprintf1
  rw [h]
  rfl

/-! ## Claims -/

/-- Claim C1.  The image loop skips a candidate URL `u` as a duplicate exactly
when some stored name `e` of the list has `Snakecase(quick_strip_url(u)) ==
quick_strip(e)`, and treats it as new otherwise.  With the single stored name
`yosemite_valley_001`, every URL ending in `/yosemite_valley.jpg` is a
duplicate, both keys being `yosemite_valley`, and every URL ending in
`/half_dome.jpg` is new. -/
theorem C1_dedup_decision :
    (∀ (u : Str) (L : List Str),
      (isDuplicate u L = true ↔
        ∃ e ∈ L, Snakecase (quick_strip_url u) = quick_strip e) ∧
      (isDuplicate u L = false ↔
        ∀ e ∈ L, Snakecase (quick_strip_url u) ≠ quick_strip e)) ∧
    (∀ p : Str,
      Snakecase (quick_strip_url (p ++ "/yosemite_valley.jpg".toList))
        = "yosemite_valley".toList ∧
      quick_strip "yosemite_valley_001".toList = "yosemite_valley".toList ∧
      isDuplicate (p ++ "/yosemite_valley.jpg".toList) ["yosemite_valley_001".toList] = true ∧
      isDuplicate (p ++ "/half_dome.jpg".toList) ["yosemite_valley_001".toList] = false) := by
  refine ⟨fun u L => ⟨isDuplicate_iff u L, ?_⟩, fun p => ?_⟩
  · rw [← Bool.not_eq_true, isDuplicate_iff]
    simp
  · have h1 : quick_strip_url (p ++ "/yosemite_valley.jpg".toList) = "yosemite_valley".toList := by
      have := quick_strip_url_append_slash p "yosemite_valley.jpg".toList (by decide) (by decide)
      rw [show "/yosemite_valley.jpg".toList = '/' :: "yosemite_valley.jpg".toList from rfl, this]
      decide
    have h2 : quick_strip_url (p ++ "/half_dome.jpg".toList) = "half_dome".toList := by
      have := quick_strip_url_append_slash p "half_dome.jpg".toList (by decide) (by decide)
      rw [show "/half_dome.jpg".toList = '/' :: "half_dome.jpg".toList from rfl, this]
      decide
    refine ⟨by rw [h1]; decide, by decide, ?_, ?_⟩
    · simp only [isDuplicate, h1]; decide
    · simp only [isDuplicate, h2]; decide

/-- Claim C2.  `quick_strip` cuts at the last underscore: `quick_strip(k + "_" + t)
== k` for every `k` and every underscore-free `t`, and `quick_strip(s) == s` when
`s` has no underscore.  Hence, once a name `Snakecase(quick_strip_url(u)) + "_" + t`
with `t` underscore-free is in the stored image list of an entity, the image
loop (of a campground as of a park) classifies `u` as a duplicate and its body
for `u` changes nothing: no download, no file, no save; the loop over any
image list runs as over the list without `u`. -/
theorem C2_ingestion_idempotent :
    (∀ k t : Str, '_' ∉ t → quick_strip (k ++ '_' :: t) = k) ∧
    (∀ s : Str, '_' ∉ s → quick_strip s = s) ∧
    (∀ (env : Env) (u t : Str) (current : List Str), '_' ∉ t →
      Snakecase (quick_strip_url u) ++ '_' :: t ∈ current →
      isDuplicate u current = true ∧
      (∀ s, campImageLoopBody env current s u = s) ∧
      (∀ s, parkImageLoopBody env current s u = s) ∧
      (∀ (imgs : List Str) s, imgs.foldl (campImageLoopBody env current) s
        = (imgs.filter fun v => decide (v ≠ u)).foldl (campImageLoopBody env current) s) ∧
      (∀ (imgs : List Str) s, imgs.foldl (parkImageLoopBody env current) s
        = (imgs.filter fun v => decide (v ≠ u)).foldl (parkImageLoopBody env current) s)) := by
  refine ⟨quick_strip_append, quick_strip_no_underscore, ?_⟩
  intro env u t current ht hmem
  have hdup := isDuplicate_of_stored u t current ht hmem
  have hc : ∀ s, campImageLoopBody env current s u = s := fun s => by
    simp [campImageLoopBody, hdup]
  have hp : ∀ s, parkImageLoopBody env current s u = s := fun s => by
    simp [parkImageLoopBody, hdup]
  exact ⟨hdup, hc, hp, fun imgs s => foldl_skip _ u hc imgs s,
    fun imgs s => foldl_skip _ u hp imgs s⟩

/-- Claim C2 at a concrete input: the stored name `half_dome_Ab12.jpg` and
the URL `https://x.org/img/Half Dome.jpg`. -/
theorem C2_ingestion_idempotent_witness :
    quick_strip "half_dome_Ab12.jpg".toList = "half_dome".toList ∧
    quick_strip "halfdome".toList = "halfdome".toList ∧
    isDuplicate "https://x.org/img/Half Dome.jpg".toList ["half_dome_Ab12.jpg".toList] = true :=
  ⟨C2_ingestion_idempotent.1 "half_dome".toList "Ab12.jpg".toList (by decide),
   C2_ingestion_idempotent.2.1 "halfdome".toList (by decide),
   (C2_ingestion_idempotent.2.2
      { NPS_API_KEY := [], MAPBOX_ACCESS_TOKEN := [], httpGet := fun _ _ => none,
        dbOk := fun _ => true, submitOk := fun _ => true, newId := fun _ => [],
        fileName := fun _ n => n, jpegEncode := fun _ => none, pngEncode := fun _ => none }
      "https://x.org/img/Half Dome.jpg".toList "Ab12.jpg".toList
      ["half_dome_Ab12.jpg".toList] (by decide) (by decide)).1⟩

/-- Claim C3 (the code does otherwise).  Two invocations of
`FetchAndStoreNationalParks`, `false` and `true`, interleaved in any way:
while one holds `mu` the other cannot move, it waits in `mu.Lock()` (or has
returned); an invocation that has returned has always run the synchronization
logic itself; and when both have returned the logic has been executed twice.
In the overlap where the second invocation arrives while the first runs the
logic, the second is blocked, and the complete run executes the logic twice. -/
theorem C3_overlapping_invocations_both_run (env : Env) (w : World) (sched : List Bool) :
    (∀ a b : Bool, a ≠ b → (run env sched (Sys.init Bool w)).mu = some a →
      step env b (run env sched (Sys.init Bool w)) = none ∧
      ((run env sched (Sys.init Bool w)).pc b = .atLock ∨
        ∃ ran e, (run env sched (Sys.init Bool w)).pc b = .returned ran e)) ∧
    (∀ (t : Bool) (ran : Bool) (e : Option Err),
      (run env sched (Sys.init Bool w)).pc t = .returned ran e → ran = true) ∧
    ((∃ ran e, (run env sched (Sys.init Bool w)).pc false = .returned ran e) →
      (∃ ran e, (run env sched (Sys.init Bool w)).pc true = .returned ran e) →
      (run env sched (Sys.init Bool w)).runs = 2) ∧
    (run env [false, false, false] (Sys.init Bool w)).pc false = .atBody ∧
    step env true (run env [false, false, false] (Sys.init Bool w)) = none ∧
    (run env [false, false, false, true, false, false, false, true, true, true, true, true, true]
      (Sys.init Bool w)).runs = 2 ∧
    (∃ e, (run env
      [false, false, false, true, false, false, false, true, true, true, true, true, true]
      (Sys.init Bool w)).pc true = .returned true e) := by
  have hg := run_good env sched (Sys.init Bool w) (Sys.init_good Bool w)
  have hc := run_ranCount env sched (Sys.init Bool w) rfl
  refine ⟨fun a b hab hmu => step_blocked env _ hg a b hab hmu, fun t ran e h => ?_,
    fun hf ht => ?_, ?_, ?_, ?_, ?_⟩
  · have := hg.noSkip t
    rw [h] at this
    cases ran
    · simp [Pc.skipped] at this
    · rfl
  · obtain ⟨r1, e1, h1⟩ := hf
    obtain ⟨r2, e2, h2⟩ := ht
    have n1 := hg.noSkip false
    have n2 := hg.noSkip true
    rw [h1] at n1
    rw [h2] at n2
    rw [← hc]
    unfold ranCount
    rw [h1, h2]
    cases r1 <;> cases r2 <;> simp_all [Pc.skipped, Pc.ranBody]
  · simp [run, step, Sys.goto, Sys.init]
  · simp [run, step, Sys.goto, Sys.init]
  · simp [run, step, Sys.goto, Sys.init]
  · simp [run, step, Sys.goto, Sys.init]

/-- Claim C4.  For every catalog entry, the park loop of
`FetchAndStoreNationalParks` acts on it exactly when its designation is the
string `National Park` or the string `National Park & Preserve`: then its
first action is the store lookup of the park code; with any other designation
(such as `National Monument`) the world is left as it was, with no store
lookup, no image download, no campground fetch and no write.  The park loop
over a catalog therefore runs as over the entries of accepted designation. -/
theorem C4_designation_filter (env : Env) (w : World) (park : ParkEntry) :
    (parkLoopBody env w park ≠ w ↔
      (park.Designation = "National Park".toList ∨
        park.Designation = "National Park & Preserve".toList)) ∧
    ((park.Designation = "National Park".toList ∨
        park.Designation = "National Park & Preserve".toList) →
      ∃ rest, (parkLoopBody env w park).trace
        = w.trace ++ Effect.findPark park.ParkCode :: rest) ∧
    (¬ (park.Designation = "National Park".toList ∨
        park.Designation = "National Park & Preserve".toList) →
      parkLoopBody env w park = w) ∧
    (park.Designation = "National Monument".toList → parkLoopBody env w park = w) ∧
    (∀ data : List ParkEntry,
      data.foldl (parkLoopBody env) w
        = (data.filter fun p => decide (p.Designation = "National Park".toList ∨
            p.Designation = "National Park & Preserve".toList)).foldl (parkLoopBody env) w) := by
  have hacc : (park.Designation = "National Park".toList ∨
        park.Designation = "National Park & Preserve".toList) →
      ∃ rest, (parkLoopBody env w park).trace
        = w.trace ++ Effect.findPark park.ParkCode :: rest := by
    intro h
    obtain ⟨rest, hrest⟩ := parkLoopBody_accepted env w park ((acceptedDesignation_iff park).2 h)
    exact ⟨rest, by rw [← hrest]; simp⟩
  have hrej : ¬ (park.Designation = "National Park".toList ∨
        park.Designation = "National Park & Preserve".toList) →
      parkLoopBody env w park = w := by
    intro h
    apply parkLoopBody_rejected
    rw [← Bool.not_eq_true, acceptedDesignation_iff]
    exact h
  refine ⟨⟨fun hne => ?_, fun h heq => ?_⟩, hacc, hrej, fun h => hrej ?_, fun data => ?_⟩
  · by_contra hn
    exact hne (hrej hn)
  · obtain ⟨rest, hrest⟩ := hacc h
    rw [heq] at hrest
    have := congrArg List.length hrest
    simp at this
  · rw [h]; decide
  · apply foldl_filter_of_skip
    intro s a ha
    apply parkLoopBody_rejected
    rw [← Bool.not_eq_true, acceptedDesignation_iff]
    simpa using ha

/-- Claim C4 at concrete entries: one of designation `National Park`, one of
designation `National Monument`, on an empty store with every request
failing. -/
theorem C4_designation_filter_witness :
    (∃ rest, (parkLoopBody
        { NPS_API_KEY := [], MAPBOX_ACCESS_TOKEN := [], httpGet := fun _ _ => none,
          dbOk := fun _ => true, submitOk := fun _ => true, newId := fun _ => [],
          fileName := fun _ n => n, jpegEncode := fun _ => none, pngEncode := fun _ => none }
        { clock := 0, store := { parks := [], campgrounds := [], alerts := [] }, trace := [] }
        { FullName := [], Description := [], Latitude := [], Longitude := [], States := [],
          Designation := "National Park".toList, ParkCode := "yose".toList,
          DirectionsInfo := [], WeatherInfo := [], Images := [] }).trace
      = [] ++ Effect.findPark "yose".toList :: rest) ∧
    parkLoopBody
        { NPS_API_KEY := [], MAPBOX_ACCESS_TOKEN := [], httpGet := fun _ _ => none,
          dbOk := fun _ => true, submitOk := fun _ => true, newId := fun _ => [],
          fileName := fun _ n => n, jpegEncode := fun _ => none, pngEncode := fun _ => none }
        { clock := 0, store := { parks := [], campgrounds := [], alerts := [] }, trace := [] }
        { FullName := [], Description := [], Latitude := [], Longitude := [], States := [],
          Designation := "National Monument".toList, ParkCode := "badl".toList,
          DirectionsInfo := [], WeatherInfo := [], Images := [] }
      = { clock := 0, store := { parks := [], campgrounds := [], alerts := [] }, trace := [] } :=
  ⟨(C4_designation_filter _ _ _).2.1 (Or.inl rfl),
   (C4_designation_filter _ _ _).2.2.2.1 rfl⟩

/-- Claim C5 (the code does otherwise).  When the campground of an entry is
already stored, every image of the entry is a duplicate and the record has its
map image, `fetchCampgrounds` loads the incoming fields into the form and never
calls `form.Submit`: the loop body only looks the record up.  On the stored
campground `c1` named `Old Name` and the incoming entry named `New Name`,
`fetchCampgrounds` returns the count 1 and no error, and the store still holds
the record unchanged, named `Old Name`. -/
theorem C5_campground_merge_not_saved :
    (∀ (env : Env) (parkId : Str) (w : World) (c : CampEntry) (r : CampRecord),
      env.dbOk w.clock = true →
      w.store.campgrounds.find? (fun x => x.campId = c.Id) = some r →
      (∀ u ∈ c.Images, isDuplicate u r.images = true) → r.mapImage ≠ [] →
      (campLoopBody env parkId w c).store = w.store) ∧
    (fetchCampgrounds campEnv campWorld "p1".toList "yose".toList).2 = (1, none) ∧
    (fetchCampgrounds campEnv campWorld "p1".toList "yose".toList).1.store.campgrounds
      = [storedCamp] ∧
    storedCamp.name = "Old Name".toList ∧ incomingCamp.Name = "New Name".toList ∧
    (fetchCampgrounds campEnv campWorld "p1".toList "yose".toList).1.trace
      = [.httpGet (campgroundsURL campEnv "yose".toList),
         .findCollection "campgrounds".toList, .findCampground "c1".toList] := by
  refine ⟨fun env parkId w c r hok hfind hdup hmap => ?_, ?_, ?_, rfl, rfl, ?_⟩
  · rw [campLoopBody_no_submit env parkId w c r hok hfind hdup hmap]
    rfl
  · decide
  · decide
  · decide

/-- Claim C6 as stated fails: the string `9223372036854775808` is out of the
integer range, `strconv.Atoi` reports a range error, and the value it returns
with the error, which the code keeps, is 9223372036854775807 and not 0. -/
theorem C6_out_of_range_is_not_zero :
    isDecimal "9223372036854775808".toList = true ∧
    (2 : Int) ^ 63 - 1 < decimalInt "9223372036854775808".toList ∧
    (Atoi "9223372036854775808".toList).2 = some .range ∧
    (Atoi "9223372036854775808".toList).1 = 9223372036854775807 ∧
    (Atoi "9223372036854775808".toList).1 ≠ 0 := by
  decide

/-- Claim C6, amended.  The integer loaded into `reservable` and
`firstComeFirstServe` is the value `strconv.Atoi` returns, its error being
discarded.  For a valid decimal integer (an optional sign and one digit or
more) within the 64-bit range it is the decimal value; for a valid decimal
integer above the range it is `2^63 - 1` and below the range `-2^63`; for a
string that is not a valid decimal integer (empty, a lone sign, a non-digit
character) it is 0, unless the digits before the first offending character
already exceed `2^64 - 1`, when it is again the nearest bound. -/
theorem C6_site_count_parsing (s : Str) :
    (isDecimal s = true → -(2 ^ 63) ≤ decimalInt s → decimalInt s ≤ 2 ^ 63 - 1 →
      Atoi s = (decimalInt s, none)) ∧
    (isDecimal s = true → 2 ^ 63 - 1 < decimalInt s → (Atoi s).1 = 2 ^ 63 - 1) ∧
    (isDecimal s = true → decimalInt s < -(2 ^ 63) → (Atoi s).1 = -(2 ^ 63)) ∧
    (isDecimal s = false → digitsValue ((unsignedPart s).takeWhile isDigit) < 2 ^ 64 →
      (Atoi s).1 = 0) ∧
    (2 ^ 64 ≤ digitsValue ((unsignedPart s).takeWhile isDigit) →
      (Atoi s).1 = if s.head? = some '-' then -(2 ^ 63) else 2 ^ 63 - 1) := by
  refine ⟨fun h h1 h2 => ?_, fun h h1 => ?_, fun h h1 => ?_, fun h hv => ?_, fun hv => ?_⟩
  · rw [Atoi_decimal s h, if_neg (by omega), if_neg (by omega)]
  · rw [Atoi_decimal s h, if_pos h1]
  · rw [Atoi_decimal s h, if_neg (by omega), if_pos h1]
  · rw [Atoi_not_decimal s h hv]
  · rw [Atoi_overflow s hv]
    split <;> rfl

/-- Claim C6 at concrete inputs: `-42`, `9223372036854775808`, `12a` and the
empty string. -/
theorem C6_site_count_parsing_witness :
    Atoi "-42".toList = (decimalInt "-42".toList, none) ∧
    (Atoi "9223372036854775808".toList).1 = 2 ^ 63 - 1 ∧
    (Atoi "12a".toList).1 = 0 ∧
    (Atoi ([] : Str)).1 = 0 :=
  ⟨(C6_site_count_parsing "-42".toList).1 (by decide) (by decide) (by decide),
   (C6_site_count_parsing "9223372036854775808".toList).2.1 (by decide) (by decide),
   (C6_site_count_parsing "12a".toList).2.2.2.1 (by decide) (by decide),
   (C6_site_count_parsing []).2.2.2.1 (by decide) (by decide)⟩

/-- Claim C7 (the code does otherwise).  When the campground catalog answers
with a status that is not 200 OK, `fetchCampgrounds` returns the count 0 with a
nil error: the statement `return 0, err` is reached with `err == nil`.  On the
stored park `yose`, whose campground count is 5, and a catalog answering 404,
the park loop then goes on to write the count and saves `campgrounds = 0`. -/
theorem C7_not_ok_status_returns_nil_error :
    (∀ (env : Env) (w : World) (parkId parkCode : Str) (resp : Response),
      env.httpGet w.clock (campgroundsURL env parkCode) = some resp →
      resp.StatusCode ≠ 200 →
      (fetchCampgrounds env w parkId parkCode).2 = (0, none)) ∧
    (fetchCampgrounds notFoundEnv parkWorld "p1".toList "yose".toList).2 = (0, none) ∧
    storedPark.campgrounds = 5 ∧
    (parkLoopBody notFoundEnv parkWorld incomingPark).store.parks
      = [{ storedPark with campgrounds := 0 }] ∧
    (parkLoopBody notFoundEnv parkWorld incomingPark).trace
      = [.findPark "yose".toList, .httpGet (campgroundsURL notFoundEnv "yose".toList),
         .submitPark { storedPark with campgrounds := 0 } true] := by
  refine ⟨fun env w parkId parkCode resp hget hst => ?_, ?_, rfl, ?_, ?_⟩
  · unfold fetchCampgrounds
    simp [hget, hst, StatusOK]
  · decide
  · decide
  · decide

/-- Claim C8.  For a decoded image of width `w >= 1` and height `h >= 0` (its
pixel count `w * h` fitting in an `int`, as for every raster in memory) and a
maximum width `m >= 1`: when `w > m` the raster built by
`downloadAndResizeImage` is scaled, exactly `m` wide and `h*m/w` rounded down
high, less than one pixel below the exact height `h*m/w`; when `w <= m` it is
drawn unscaled with exactly the dimensions `w` by `h` of the input. -/
theorem C8_resize_policy (img : Image) (m : Int) (hw : 1 ≤ img.dx) (hh : 0 ≤ img.dy)
    (hm : 1 ≤ m) (hbuf : img.dx * img.dy < 2 ^ 63) :
    (img.dx > m →
      (resizeRaster img m).width = m ∧
      (resizeRaster img m).height = img.dy * m / img.dx ∧
      (resizeRaster img m).scaled = true ∧
      ((resizeRaster img m).height : ℚ) ≤ (img.dy * m : ℚ) / (img.dx : ℚ) ∧
      (img.dy * m : ℚ) / (img.dx : ℚ) - ((resizeRaster img m).height : ℚ) < 1) ∧
    (img.dx ≤ m →
      (resizeRaster img m).width = img.dx ∧
      (resizeRaster img m).height = img.dy ∧
      (resizeRaster img m).scaled = false) ∧
    (resizeRaster img m).source = img := by
  refine ⟨fun hwide => ?_, fun hnarrow => ?_, ?_⟩
  · rw [resizeRaster_wide img m hh hm hbuf hwide]
    have hb := floor_div_bounds (img.dy * m) img.dx (by omega)
    push_cast at hb
    refine ⟨rfl, rfl, rfl, hb.1, ?_⟩
    linarith [hb.2]
  · rw [resizeRaster_narrow img m hw hh hnarrow]
    exact ⟨rfl, rfl, rfl⟩
  · by_cases hwide : img.dx > m
    · rw [resizeRaster_wide img m hh hm hbuf hwide]
    · rw [resizeRaster_narrow img m hw hh (by omega)]

/-- Claim C8 at concrete inputs: an image of 4000 by 3001 scaled to the width
1500, where the height 1125 stands for 1125.375, and an image of 800 by 600
left at its size. -/
theorem C8_resize_policy_witness :
    ((resizeRaster { dx := 4000, dy := 3001, pixels := 0 } 1500).width = 1500 ∧
      (resizeRaster { dx := 4000, dy := 3001, pixels := 0 } 1500).height = 1125) ∧
    ((resizeRaster { dx := 800, dy := 600, pixels := 0 } 1500).width = 800 ∧
      (resizeRaster { dx := 800, dy := 600, pixels := 0 } 1500).height = 600) :=
  ⟨⟨((C8_resize_policy { dx := 4000, dy := 3001, pixels := 0 } 1500 (by decide) (by decide)
        (by decide) (by decide)).1 (by decide)).1,
    ((C8_resize_policy { dx := 4000, dy := 3001, pixels := 0 } 1500 (by decide) (by decide)
        (by decide) (by decide)).1 (by decide)).2.1⟩,
   ⟨((C8_resize_policy { dx := 800, dy := 600, pixels := 0 } 1500 (by decide) (by decide)
        (by decide) (by decide)).2.1 (by decide)).1,
    ((C8_resize_policy { dx := 800, dy := 600, pixels := 0 } 1500 (by decide) (by decide)
        (by decide) (by decide)).2.1 (by decide)).2.1⟩⟩

/-- Claim C9 as stated fails: on a response of status 404 whose body is a
decodable image, `downloadAndResizeImage` returns the encoded buffer and no
error. -/
theorem C9_not_found_image_is_transcoded :
    placeholderEnv.httpGet 0 "https://x.org/a.jpg".toList
      = some { StatusCode := 404, body := { emptyBody with image := some placeholderImage } } ∧
    ¬ (200 ≤ 404 ∧ 404 < 300) ∧
    (downloadAndResizeImage placeholderEnv
      { clock := 0, store := { parks := [], campgrounds := [], alerts := [] }, trace := [] }
      "https://x.org/a.jpg".toList 1500).2 = .ok [1] :=
  ⟨rfl, by decide, rfl⟩

/-- Claim C9, amended.  `downloadAndResizeImage` returns an error and no byte
buffer exactly when the request fails in transport, or the body of the
response does not decode as an image, or the encoding fails.  The status of
the response is not inspected: the result is determined by the body alone, so
that a response of any status, 2xx or not, gives an error when its body does
not decode and the encoded buffer when its body is a decodable image. -/
theorem C9_transcoder_failures (env : Env) (w : World) (url : Str) (m : Int) :
    ((∃ e, (downloadAndResizeImage env w url m).2 = .error e) ↔
      (env.httpGet w.clock url = none ∨
        ∃ r, env.httpGet w.clock url = some r ∧
          (r.body.image = none ∨
            ∃ img, r.body.image = some img ∧ env.jpegEncode (resizeRaster img m) = none))) ∧
    (∀ r, env.httpGet w.clock url = some r → r.body.image = none →
      (downloadAndResizeImage env w url m).2 = .error .decode) ∧
    (∀ r img buf, env.httpGet w.clock url = some r → r.body.image = some img →
      env.jpegEncode (resizeRaster img m) = some buf →
      (downloadAndResizeImage env w url m).2 = .ok buf) := by
  refine ⟨?_, fun r hr hi => ?_, fun r img buf hr hi he => ?_⟩
  · unfold downloadAndResizeImage
    cases hget : env.httpGet w.clock url with
    | none => simp
    | some r =>
      cases himg : r.body.image with
      | none => simp [himg]
      | some img =>
        cases henc : env.jpegEncode (resizeRaster img m) with
        | none => simp [himg, henc]
        | some buf => simp [himg, henc]
  · unfold downloadAndResizeImage
    simp [hr, hi]
  · unfold downloadAndResizeImage
    simp [hr, hi, he]

/-- Claim C9 at concrete inputs: a 404 response with an undecodable body is an
error, a 404 response with a decodable image is not. -/
theorem C9_transcoder_failures_witness :
    (downloadAndResizeImage notFoundEnv parkWorld "https://x.org/a.jpg".toList 1500).2
      = .error .decode ∧
    (downloadAndResizeImage placeholderEnv parkWorld "https://x.org/a.jpg".toList 1500).2
      = .ok [1] :=
  ⟨(C9_transcoder_failures notFoundEnv parkWorld "https://x.org/a.jpg".toList 1500).2.1
      { StatusCode := 404, body := emptyBody } rfl rfl,
   (C9_transcoder_failures placeholderEnv parkWorld "https://x.org/a.jpg".toList 1500).2.2
      { StatusCode := 404, body := { emptyBody with image := some placeholderImage } }
      placeholderImage [1] rfl rfl rfl⟩

/-- Claim C10 as stated fails: with one stored park, one alert fetched for it
and `form.Submit` failing, `FetchAlerts` logs the failure, goes on and returns
nil; the stored alert set is then empty, while the union of the fetched alerts
holds one alert. -/
theorem C10_unsaved_alert_is_missing :
    (∀ t code, rejectingEnv.httpGet t (alertsURL rejectingEnv code) = alertAnswer) ∧
    (FetchAlerts rejectingEnv alertWorld).2 = none ∧
    (FetchAlerts rejectingEnv alertWorld).1.store.alerts = [] ∧
    expectedAlerts (fun _ => alertAnswer) alertWorld.store.parks
      = [(freshAlert, "p1".toList)] ∧
    (FetchAlerts rejectingEnv alertWorld).1.store.alerts.map AlertRecord.content
      ≠ expectedAlerts (fun _ => alertAnswer) alertWorld.store.parks := by
  refine ⟨fun _ _ => rfl, ?_, ?_, ?_, ?_⟩ <;> decide

/-- Claim C10, amended.  After a run of `FetchAlerts` that returns nil, with
`fetch` the answers to the per-park alert requests: every alert record that
existed before the run has been deleted, the park loop having started from an
empty alert collection; the stored alert records say, in order, a part of the
union over the stored parks of the alerts fetched for each park, each with its
title, description, category, url and the id of that park, namely those whose
`form.Submit` succeeded; and when every `form.Submit` succeeds the stored alert
set is exactly that union. -/
theorem C10_alert_refresh (env : Env) (fetch : Str → Option Response) (w w' : World)
    (hfetch : ∀ t code, env.httpGet t (alertsURL env code) = fetch code)
    (hrun : FetchAlerts env w = (w', none)) :
    (∃ w0, w0.store.alerts = [] ∧ w0.store.parks = w.store.parks ∧
      w' = w.store.parks.foldl (alertParkLoopBody env) w0) ∧
    (w'.store.alerts.map AlertRecord.content).Sublist (expectedAlerts fetch w.store.parks) ∧
    ((∀ t, env.submitOk t = true) →
      w'.store.alerts.map AlertRecord.content = expectedAlerts fetch w.store.parks) ∧
    w'.store.parks = w.store.parks := by
  obtain ⟨w0, h0, hp, hw'⟩ := FetchAlerts_ok env w w' hrun
  obtain ⟨new, hnew, hsub, heq, hparks⟩ :=
    alertParkLoop_grows env fetch hfetch w.store.parks w0
  rw [← hw', h0, List.nil_append] at hnew
  rw [← hw'] at hparks
  refine ⟨⟨w0, h0, hp, hw'⟩, ?_, fun hall => ?_, by rw [hparks, hp]⟩
  · rw [hnew]; exact hsub
  · rw [hnew]; exact heq hall

/-- Claim C10 at a concrete input: the store holds one park and a stale
alert, the catalog answers one alert, every save succeeds. -/
theorem C10_alert_refresh_witness :
    (FetchAlerts alertEnv alertWorld).1.store.alerts.map AlertRecord.content
      = expectedAlerts (fun _ => alertAnswer) alertWorld.store.parks ∧
    expectedAlerts (fun _ => alertAnswer) alertWorld.store.parks
      = [(freshAlert, "p1".toList)] ∧
    staleAlert ∉ (FetchAlerts alertEnv alertWorld).1.store.alerts :=
  ⟨(C10_alert_refresh alertEnv (fun _ => alertAnswer) alertWorld
      (FetchAlerts alertEnv alertWorld).1 (fun _ _ => rfl) (by decide)).2.2.1 (fun _ => rfl),
   by decide, by decide⟩

/-- Claim C11 (the code does otherwise).  When every day of a decoded forecast
carries at least one icon code, `parseWeatherData` returns one `WeatherDate`
per day in the order of the days, entry `i` derived from day `i`.  But a
forecast decodes as well when the array `weather` of a day is empty, and then
the index expression `daily.Weather[0]` panics: `parseWeatherData` does not
return.  So it is on the decoded forecast of the days `sunnyDay`, `bareDay`. -/
theorem C11_weather_sequence_panics_without_icon :
    (∀ (ops : FloatOps) (wenv : WeatherEnv) (url : Str) (resp : ForecastResponse)
        (daily : List Daily),
      wenv.httpGet url = some resp → resp.readOk = true → resp.daily = some daily →
      (∃ d ∈ daily, d.Weather = []) → parseWeatherData ops wenv url = .panics) ∧
    (∀ (ops : FloatOps) (wenv : WeatherEnv) (url : Str) (resp : ForecastResponse)
        (daily : List Daily),
      wenv.httpGet url = some resp → resp.readOk = true → resp.daily = some daily →
      (∀ d ∈ daily, d.Weather ≠ []) →
      ∃ r, parseWeatherData ops wenv url = .ok r ∧ r.length = daily.length ∧
        ∀ j, r[j]? = daily[j]?.map fun d =>
          weatherDateOf ops wenv j d (d.Weather.headD [])) ∧
    (forecastEnv [sunnyDay, bareDay]).httpGet "https://x.org/onecall".toList
      = some { readOk := true, daily := some [sunnyDay, bareDay] } ∧
    parseWeatherData plainOps (forecastEnv [sunnyDay, bareDay]) "https://x.org/onecall".toList
      = .panics ∧
    parseWeatherData plainOps (forecastEnv [sunnyDay]) "https://x.org/onecall".toList
      = .ok [weatherDateOf plainOps (forecastEnv [sunnyDay]) 0 sunnyDay "01d".toList] := by
  refine ⟨fun ops wenv url resp daily hget hread hdaily hbad => ?_,
    fun ops wenv url resp daily hget hread hdaily hgood => ?_, rfl, by decide, by decide⟩
  · unfold parseWeatherData
    simp only [hget, hread, hdaily, Bool.not_true, Bool.false_eq_true, if_false]
    exact weatherLoop_panics ops wenv daily 0 [] hbad
  · refine ⟨expectedWeather ops wenv 0 daily, ?_, expectedWeather_length ops wenv daily 0,
      fun j => ?_⟩
    · unfold parseWeatherData
      simp only [hget, hread, hdaily, Bool.not_true, Bool.false_eq_true, if_false]
      rw [weatherLoop_ok ops wenv daily 0 [] hgood, List.nil_append]
    · rw [expectedWeather_getElem?, Nat.zero_add]

set_option maxRecDepth 100000 in
/-- Claim C12 as stated fails.  At the reading 0 the code prints `-273.1`, the
float64 difference being -273.14999999999997726, while the exact value -273.15
written with one decimal place, ties to even, is `-273.2`.  At the reading
273.2, the float64 nearest to it, the exact value of `K - 273.15` is below
0.05 and is written `0.0`, and the code prints `0.1`.  At the largest float64
the Fahrenheit product overflows and the code prints `+Inf`, which has no
decimal place. -/
theorem C12_rendering_is_of_the_float64_value :
    (kelvinToCelsius ieeeOps { bits := 0 } = "-273.1".toList ∧
      renderTenths true 27315 100 = "-273.2".toList) ∧
    (decodeF64 (f64lit "273.2".toList) = .finite false 4806185227334451 17592186044416 ∧
      (0 : ℚ) < 4806185227334451 / 17592186044416 - 27315 / 100 ∧
      (4806185227334451 : ℚ) / 17592186044416 - 27315 / 100 < 5 / 100 ∧
      renderTenths false (100 * 4806185227334451 - 27315 * 17592186044416)
        (100 * 17592186044416) = "0.0".toList ∧
      kelvinToCelsius ieeeOps (f64lit "273.2".toList) = "0.1".toList) ∧
    (decodeF64 { bits := 9218868437227405311 }
        = .finite false ((2 ^ 53 - 1) * pow2 971) 1 ∧
      kelvinToFahrenheit ieeeOps { bits := 9218868437227405311 } = "+Inf".toList) := by
  refine ⟨⟨by decide, by decide⟩, ⟨by decide, by norm_num, by norm_num, by decide, by decide⟩,
    ⟨by decide, by decide⟩⟩

set_option maxRecDepth 100000 in
/-- Claim C12, amended.  For every reading `K`: when the float64 difference of
`K` and the float64 nearest to 273.15 is finite, of sign `neg` and magnitude
`num / den`, `kelvinToCelsius(K)` is that float64 value written with exactly
one decimal place: the sign, the integer digits, the point and one digit, the
number of tenths being nearest to the value (within half a tenth).  Likewise
`kelvinToFahrenheit(K)` for the float64 value of `(K - 273.15) * 1.8 + 32`,
each operation rounded to float64, when it is finite.  In particular
`kelvinToFahrenheit(273.15)` is `32.0`, also when `x*1.8 + 32` is fused, and
`kelvinToCelsius(273.15)` is `0.0`. -/
theorem C12_unit_conversion (K : Float64) :
    (∀ (neg : Bool) (num den : Nat),
      decodeF64 (f64sub K (f64lit "273.15".toList)) = .finite neg num den →
      kelvinToCelsius ieeeOps K
        = (if neg then ['-'] else []) ++ Nat.toDigits 10 (nearestTenths num den / 10)
          ++ ['.', Nat.digitChar (nearestTenths num den % 10)] ∧
      isDigit (Nat.digitChar (nearestTenths num den % 10)) = true ∧
      |((nearestTenths num den : Nat) : ℚ) - 10 * ((num : ℚ) / (den : ℚ))| ≤ 1 / 2) ∧
    (∀ (neg : Bool) (num den : Nat),
      decodeF64 (f64add (f64mul (f64sub K (f64lit "273.15".toList)) (f64lit "1.8".toList))
        (f64lit "32".toList)) = .finite neg num den →
      kelvinToFahrenheit ieeeOps K
        = (if neg then ['-'] else []) ++ Nat.toDigits 10 (nearestTenths num den / 10)
          ++ ['.', Nat.digitChar (nearestTenths num den % 10)] ∧
      isDigit (Nat.digitChar (nearestTenths num den % 10)) = true ∧
      |((nearestTenths num den : Nat) : ℚ) - 10 * ((num : ℚ) / (den : ℚ))| ≤ 1 / 2) ∧
    kelvinToFahrenheit ieeeOps (f64lit "273.15".toList) = "32.0".toList ∧
    kelvinToFahrenheitFused (f64lit "273.15".toList) = "32.0".toList ∧
    kelvinToCelsius ieeeOps (f64lit "273.15".toList) = "0.0".toList := by
  refine ⟨fun neg num den h => ?_, fun neg num den h => ?_, by decide, by decide, by decide⟩
  · exact ⟨f64sprintf1_finite _ neg num den h, digitChar_isDigit _,
      nearestTenths_spec num den (decodeF64_den_pos _ neg num den h)⟩
  · exact ⟨f64sprintf1_finite _ neg num den h, digitChar_isDigit _,
      nearestTenths_spec num den (decodeF64_den_pos _ neg num den h)⟩

set_option maxRecDepth 100000 in
/-- Claim C12 at the reading 300: the float64 difference is
7557603124681120 / 2^48, printed `26.9`, and the Fahrenheit value is
5652721219791752 / 2^46, printed `80.3`. -/
theorem C12_unit_conversion_witness :
    kelvinToCelsius ieeeOps (f64lit "300".toList) = "26.9".toList ∧
    kelvinToFahrenheit ieeeOps (f64lit "300".toList) = "80.3".toList :=
  ⟨(((C12_unit_conversion (f64lit "300".toList)).1 false 7557603124681120 281474976710656
      (by decide)).1).trans (by decide),
   (((C12_unit_conversion (f64lit "300".toList)).2.1 false 5652721219791752 70368744177664
      (by decide)).1).trans (by decide)⟩

/-- Claim C13.  In every state reached by any number of invocations of
`FetchAndStoreNationalParks`, interleaved in any way: `isRunning` is false
initially and whenever `mu` is not held; an invocation between `mu.Lock()`
and its deferred `mu.Unlock()` is the holder of `mu`; an invocation that has
acquired `mu` and tests `isRunning` finds it false, so that the branch
`already being fetched` is never taken; `isRunning` is false again when an
invocation is about to release `mu`, whatever the synchronization logic
returned.  The logic returns nil, a fetch error, a decode error or a
collection lookup error, and from the logic on the invocation resets the flag,
releases `mu` and returns that result. -/
theorem C13_run_flag_invariant {T : Type} [DecidableEq T] (env : Env) (w : World)
    (sched : List T) :
    (Sys.init T w).isRunning = false ∧
    ((run env sched (Sys.init T w)).mu = none →
      (run env sched (Sys.init T w)).isRunning = false) ∧
    (∀ t, ((run env sched (Sys.init T w)).pc t).holdsMu = true →
      (run env sched (Sys.init T w)).mu = some t) ∧
    (∀ t, (run env sched (Sys.init T w)).pc t = .atCheck →
      (run env sched (Sys.init T w)).isRunning = false ∧
      ∃ s', step env t (run env sched (Sys.init T w)) = some s' ∧ s'.pc t = .atSet) ∧
    (∀ t, ((run env sched (Sys.init T w)).pc t).skipped = false) ∧
    (∀ t ran e, (run env sched (Sys.init T w)).pc t = .atUnlock ran e →
      (run env sched (Sys.init T w)).isRunning = false) ∧
    (∀ t, (run env sched (Sys.init T w)).pc t = .atBody →
      (run env [t, t, t] (run env sched (Sys.init T w))).pc t
        = .returned true (syncParks env (run env sched (Sys.init T w)).world).2 ∧
      (run env [t, t] (run env sched (Sys.init T w))).isRunning = false ∧
      (run env [t, t] (run env sched (Sys.init T w))).mu = some t ∧
      (run env [t, t, t] (run env sched (Sys.init T w))).isRunning = false ∧
      (run env [t, t, t] (run env sched (Sys.init T w))).mu = none) ∧
    (∀ w0 : World, (syncParks env w0).2 = none ∨ (syncParks env w0).2 = some .network ∨
      (syncParks env w0).2 = some .decode ∨ (syncParks env w0).2 = some .notFound) := by
  have hg := run_good env sched (Sys.init T w) (Sys.init_good T w)
  generalize run env sched (Sys.init T w) = s at hg
  refine ⟨rfl, fun hmu => hg.flag_of_free hmu, fun t ht => hg.holder t ht, fun t ht => ?_,
    fun t => hg.noSkip t, fun t ran e ht => ?_, fun t ht => ?_, fun w0 => syncParks_exits env w0⟩
  · have hfalse : s.isRunning = false :=
      hg.flag_at t (by rw [ht]; rfl) (by rw [ht]; simp) (fun e => by rw [ht]; simp)
    refine ⟨hfalse, s.goto t .atSet, ?_, by simp [Sys.goto]⟩
    unfold step
    simp [ht, hfalse]
  · exact hg.flag_at t (by rw [ht]; rfl) (by rw [ht]; simp) (fun e' => by rw [ht]; simp)
  · have hmu := hg.holder t (by rw [ht]; rfl)
    simp [run, step, Sys.goto, ht, hmu]

/-- Claim C13 at a concrete run of two invocations: after the first has taken
`mu` it finds the flag false, and after its six statements `mu` is free and the
flag false, the catalog request having been answered 404 with a body that does
not decode. -/
theorem C13_run_flag_invariant_witness :
    (run notFoundEnv [false] (Sys.init Bool parkWorld)).pc false = .atCheck ∧
    (run notFoundEnv [false] (Sys.init Bool parkWorld)).isRunning = false ∧
    (run notFoundEnv [false, false, false, false, false, false]
      (Sys.init Bool parkWorld)).mu = none ∧
    (run notFoundEnv [false, false, false, false, false, false]
      (Sys.init Bool parkWorld)).isRunning = false :=
  ⟨by simp [run, step, Sys.goto, Sys.init],
   ((C13_run_flag_invariant notFoundEnv parkWorld [false]).2.2.2.1 false
      (by simp [run, step, Sys.goto, Sys.init])).1,
   by simp [run, step, Sys.goto, Sys.init],
   (C13_run_flag_invariant notFoundEnv parkWorld
      [false, false, false, false, false, false]).2.1 (by simp [run, step, Sys.goto, Sys.init])⟩

end ParkPilot
